import Mathlib

/-!
Verification of the mipsu MIPS32 instruction codec (src/mipsu.c).

This file gives a shallow embedding of the core of `mipsu.c` — the word
codec (`mipsu_decode` / `mipsu_encode`), the literal parser
(`mipsu_parse_value` and friends), the tokenizer (`mipsu_parse_asm`),
the disassembler (`mipsu_disasm`) and the assembler (`mipsu_asm`) — and
proves or refutes the specification claims about them.

Modelling conventions:
* C `uint32_t` arithmetic is modelled on `Nat` with explicit `% 4294967296`
  where C would wrap; bit shifts and masks use `<<<`, `>>>`, `&&&`, `|||`.
* `int16_t` values are modelled as `Int`; the C conversions between
  `int16_t` and `uint32_t` are made explicit (`mipsu_int16_of`,
  `mipsu_uint32_of_int`).
* C strings are modelled as `List Char`; the terminating NUL corresponds
  to the end of the list.
* The C `struct mipsu_field` is a tagged union discriminated by `type`;
  it is modelled as an inductive with one constructor per form, carrying
  exactly the members that are active for that form.
* Functions that return a `mipsu_result_t` status and write their result
  through an out pointer are modelled as `Except` values; the `OK`
  status corresponds to `.ok`.
-/

/-- The instruction-form tag, `enum mipsu_type` in the source. -/
inductive mipsu_type where
  | R
  | I
  | J
deriving DecidableEq

/-- Operand-format tags, `enum mipsu_op_fmt` in the source. -/
inductive mipsu_op_fmt where
  | UNKNOWN
  | NONE
  | RS
  | RD
  | RS_RT
  | RD_RS_RT
  | RD_RT_RS
  | RD_RT_SH
  | RS_IMM
  | RT_IMM
  | RT_IMM_RS
  | RT_RS_IMM
  | RS_RT_IMM
  | ADDR
deriving DecidableEq

/-- The non-OK result codes of `enum mipsu_result` that the core parsing
and codec functions can produce (CLI-only codes are omitted). -/
inductive mipsu_result where
  | BAD_DEC
  | BAD_RADIX
  | BAD_HEX
  | MISSING_HEXITS
  | TOO_MANY_HEXITS
  | BAD_BIN
  | MISSING_BITS
  | TOO_MANY_BITS
  | BAD_OP
  | BAD_OP_FMT
  | BAD_OP_TYPE
  | BAD_INSTR
  | BAD_REG
  | FIELD_OVERFLOW
  | FIELD_SIGN
  | INSTR_SIZE
  | BUFF_OVERFLOW
  | MISSING_ARGS
  | TOO_MANY_ARGS
deriving DecidableEq

/-- The decoded instruction, `struct mipsu_field` in the source: a tagged
union over the three forms.  Each constructor carries the `op` member and
the union members that are active for that form (`rs`,`rt`,`rd`,`sh`,`fn`
are `uint8_t`, `imm` is `int16_t`, `addr` is `uint32_t`). -/
inductive mipsu_field where
  | R (op rs rt rd sh fn : Nat)
  | I (op rs rt : Nat) (imm : Int)
  | J (op : Nat) (addr : Nat)
deriving DecidableEq

/-- One entry of the opcode / function-code tables, `struct mipsu_op_entry`.
A NULL `mnem` in the zero-initialized C array slots is modelled as `""`. -/
structure mipsu_op_entry where
  mnem : String
  fmt : mipsu_op_fmt
  type : mipsu_type
deriving DecidableEq

/-- The format/parse options carried in `mipsu_ctx_t.flags`; only the four
flags the core functions consult are modelled. -/
structure mipsu_ctx where
  quiet : Bool
  nreg : Bool
  dimm : Bool
  strict : Bool
deriving DecidableEq

/-- A context with no flags set (the default when no CLI flag is given). -/
def mipsu_default_ctx : mipsu_ctx := ⟨false, false, false, false⟩

/-- Symbolic register names, the `name` column of `mipsu_reg_lut`. -/
def mipsu_reg_name (r : Nat) : String :=
  match r with
  | 0 => "zero" | 1 => "at" | 2 => "v0" | 3 => "v1"
  | 4 => "a0" | 5 => "a1" | 6 => "a2" | 7 => "a3"
  | 8 => "t0" | 9 => "t1" | 10 => "t2" | 11 => "t3"
  | 12 => "t4" | 13 => "t5" | 14 => "t6" | 15 => "t7"
  | 16 => "s0" | 17 => "s1" | 18 => "s2" | 19 => "s3"
  | 20 => "s4" | 21 => "s5" | 22 => "s6" | 23 => "s7"
  | 24 => "t8" | 25 => "t9" | 26 => "k0" | 27 => "k1"
  | 28 => "gp" | 29 => "sp" | 30 => "fp" | 31 => "ra"
  | _ => ""

/-- Numeric register names, the `num` column of `mipsu_reg_lut`. -/
def mipsu_reg_num (r : Nat) : String :=
  match r with
  | 0 => "0" | 1 => "1" | 2 => "2" | 3 => "3"
  | 4 => "4" | 5 => "5" | 6 => "6" | 7 => "7"
  | 8 => "8" | 9 => "9" | 10 => "10" | 11 => "11"
  | 12 => "12" | 13 => "13" | 14 => "14" | 15 => "15"
  | 16 => "16" | 17 => "17" | 18 => "18" | 19 => "19"
  | 20 => "20" | 21 => "21" | 22 => "22" | 23 => "23"
  | 24 => "24" | 25 => "25" | 26 => "26" | 27 => "27"
  | 28 => "28" | 29 => "29" | 30 => "30" | 31 => "31"
  | _ => ""

/-- Number of register table entries, `mipsu_regc`. -/
def mipsu_regc : Nat := 32

/-- The indices of the populated slots of `mipsu_fn_lut`, `mipsu_fnv`. -/
def mipsu_fnv : List Nat :=
  [0x00, 0x02, 0x03, 0x04, 0x06, 0x07, 0x08, 0x09, 0x0C, 0x0D,
   0x10, 0x11, 0x12, 0x13, 0x18, 0x19, 0x1A, 0x1B, 0x20, 0x21,
   0x22, 0x23, 0x24, 0x25, 0x26, 0x27, 0x2A, 0x2B]

/-- The indices of the populated slots of `mipsu_op_lut`, `mipsu_opv`. -/
def mipsu_opv : List Nat :=
  [0x02, 0x03, 0x04, 0x05, 0x06, 0x07, 0x08, 0x09, 0x0C, 0x0D,
   0x0F, 0x20, 0x21, 0x23, 0x24, 0x25, 0x28, 0x29, 0x2B]

/-- The function-code table `mipsu_fn_lut[64]`.  Unpopulated slots are the
zero-initialized entry `{NULL, MIPSU_OP_FMT_UNKNOWN, MIPSU_TYPE_R}`
(NULL modelled as `""`).  Indices `≥ 64` would be out-of-bounds reads in C;
the claims below only use indices `< 64`. -/
def mipsu_fn_lut (i : Nat) : mipsu_op_entry :=
  match i with
  | 0x00 => ⟨"sll", .RD_RT_SH, .R⟩
  | 0x02 => ⟨"srl", .RD_RT_SH, .R⟩
  | 0x03 => ⟨"sra", .RD_RT_SH, .R⟩
  | 0x04 => ⟨"sllv", .RD_RT_RS, .R⟩
  | 0x06 => ⟨"srlv", .RD_RT_RS, .R⟩
  | 0x07 => ⟨"srav", .RD_RT_RS, .R⟩
  | 0x08 => ⟨"jalr", .RS, .R⟩
  | 0x09 => ⟨"jr", .RS, .R⟩
  | 0x0C => ⟨"syscall", .NONE, .R⟩
  | 0x0D => ⟨"break", .NONE, .R⟩
  | 0x10 => ⟨"mfhi", .RD, .R⟩
  | 0x11 => ⟨"mthi", .RS, .R⟩
  | 0x12 => ⟨"mflo", .RD, .R⟩
  | 0x13 => ⟨"mtlo", .RS, .R⟩
  | 0x18 => ⟨"mult", .RS_RT, .R⟩
  | 0x19 => ⟨"multu", .RS_RT, .R⟩
  | 0x1A => ⟨"div", .RS_RT, .R⟩
  | 0x1B => ⟨"divu", .RS_RT, .R⟩
  | 0x20 => ⟨"add", .RD_RS_RT, .R⟩
  | 0x21 => ⟨"addu", .RD_RS_RT, .R⟩
  | 0x22 => ⟨"sub", .RD_RS_RT, .R⟩
  | 0x23 => ⟨"subu", .RD_RS_RT, .R⟩
  | 0x24 => ⟨"and", .RD_RS_RT, .R⟩
  | 0x25 => ⟨"or", .RD_RS_RT, .R⟩
  | 0x26 => ⟨"xor", .RD_RS_RT, .R⟩
  | 0x27 => ⟨"nor", .RD_RS_RT, .R⟩
  | 0x2A => ⟨"slt", .RD_RS_RT, .R⟩
  | 0x2B => ⟨"sltu", .RD_RS_RT, .R⟩
  | _ => ⟨"", .UNKNOWN, .R⟩

/-- The opcode table `mipsu_op_lut[64]`, with the same conventions as
`mipsu_fn_lut`. -/
def mipsu_op_lut (i : Nat) : mipsu_op_entry :=
  match i with
  | 0x00 => ⟨"", .NONE, .R⟩
  | 0x02 => ⟨"j", .ADDR, .J⟩
  | 0x03 => ⟨"jal", .ADDR, .J⟩
  | 0x04 => ⟨"beq", .RS_RT_IMM, .I⟩
  | 0x05 => ⟨"bne", .RS_RT_IMM, .I⟩
  | 0x06 => ⟨"blez", .RS_IMM, .I⟩
  | 0x07 => ⟨"bgtz", .RS_IMM, .I⟩
  | 0x08 => ⟨"addi", .RT_RS_IMM, .I⟩
  | 0x09 => ⟨"addiu", .RT_RS_IMM, .I⟩
  | 0x0C => ⟨"andi", .RT_RS_IMM, .I⟩
  | 0x0D => ⟨"ori", .RT_RS_IMM, .I⟩
  | 0x0F => ⟨"lui", .RT_IMM, .I⟩
  | 0x20 => ⟨"lb", .RT_IMM_RS, .I⟩
  | 0x21 => ⟨"lh", .RT_IMM_RS, .I⟩
  | 0x23 => ⟨"lw", .RT_IMM_RS, .I⟩
  | 0x24 => ⟨"lbu", .RT_IMM_RS, .I⟩
  | 0x25 => ⟨"lhu", .RT_IMM_RS, .I⟩
  | 0x28 => ⟨"sb", .RT_IMM_RS, .I⟩
  | 0x29 => ⟨"sh", .RT_IMM_RS, .I⟩
  | 0x2B => ⟨"sw", .RT_IMM_RS, .I⟩
  | _ => ⟨"", .UNKNOWN, .R⟩

/-- The hex-digit value table `mipsu_hex_lut[256]`: digit value of a hex
character, `0` for every other character (as in the zero-initialized C
array). -/
def mipsu_hex_lut (c : Char) : Nat :=
  match c with
  | '0' => 0 | '1' => 1 | '2' => 2 | '3' => 3 | '4' => 4
  | '5' => 5 | '6' => 6 | '7' => 7 | '8' => 8 | '9' => 9
  | 'a' => 10 | 'b' => 11 | 'c' => 12 | 'd' => 13 | 'e' => 14 | 'f' => 15
  | 'A' => 10 | 'B' => 11 | 'C' => 12 | 'D' => 13 | 'E' => 14 | 'F' => 15
  | _ => 0

/-- Bit offset of `op` in a word, `mipsu_op_offset`. -/
def mipsu_op_offset : Nat := 26

/-- Bit offset of `rs` in a word, `mipsu_rs_offset`. -/
def mipsu_rs_offset : Nat := 21

/-- Bit offset of `rt` in a word, `mipsu_rt_offset`. -/
def mipsu_rt_offset : Nat := 16

/-- Bit offset of `rd` in a word, `mipsu_rd_offset`. -/
def mipsu_rd_offset : Nat := 11

/-- Bit offset of `sh` in a word, `mipsu_sh_offset`. -/
def mipsu_sh_offset : Nat := 6

/-- The 6-bit mask `mipsu_6bit_mask = 0b00111111`. -/
def mipsu_6bit_mask : Nat := 0b00111111

/-- The 5-bit mask `mipsu_5bit_mask = 0b00011111`. -/
def mipsu_5bit_mask : Nat := 0b00011111

/-- The 16-bit mask `mipsu_16bit_mask = 0xFFFF`. -/
def mipsu_16bit_mask : Nat := 0xFFFF

/-- The 26-bit mask `mipsu_26bit_mask = 0x03FFFFFF`. -/
def mipsu_26bit_mask : Nat := 0x03FFFFFF

/-- Reinterpretation of a 16-bit value as a two's-complement `int16_t`,
modelling the C cast `(int16_t)` of a 16-bit quantity. -/
def mipsu_int16_of (n : Nat) : Int :=
  if n % 65536 < 32768 then ((n % 65536 : Nat) : Int)
  else ((n % 65536 : Nat) : Int) - 65536

/-- The C integer conversion from a (possibly negative) integer value to
`uint32_t`: reduction modulo `2^32`. -/
def mipsu_uint32_of_int (i : Int) : Nat := (i % 4294967296).toNat

/-- Bit extraction `mipsu_op`: `(w >> 26) & 0b111111`. -/
def mipsu_op (w : Nat) : Nat := (w >>> mipsu_op_offset) &&& mipsu_6bit_mask

/-- Bit extraction `mipsu_rs`: `(w >> 21) & 0b11111`. -/
def mipsu_rs (w : Nat) : Nat := (w >>> mipsu_rs_offset) &&& mipsu_5bit_mask

/-- Bit extraction `mipsu_rt`: `(w >> 16) & 0b11111`. -/
def mipsu_rt (w : Nat) : Nat := (w >>> mipsu_rt_offset) &&& mipsu_5bit_mask

/-- Bit extraction `mipsu_rd`: `(w >> 11) & 0b11111`. -/
def mipsu_rd (w : Nat) : Nat := (w >>> mipsu_rd_offset) &&& mipsu_5bit_mask

/-- Bit extraction `mipsu_sh`: `(w >> 6) & 0b11111`. -/
def mipsu_sh (w : Nat) : Nat := (w >>> mipsu_sh_offset) &&& mipsu_5bit_mask

/-- Bit extraction `mipsu_fn`: `w & 0b111111`. -/
def mipsu_fn (w : Nat) : Nat := w &&& mipsu_6bit_mask

/-- Bit extraction `mipsu_imm`: `(int16_t)(w & 0xFFFF)`. -/
def mipsu_imm (w : Nat) : Int := mipsu_int16_of (w &&& mipsu_16bit_mask)

/-- Bit extraction `mipsu_addr`: `w & 0x03FFFFFF`. -/
def mipsu_addr (w : Nat) : Nat := w &&& mipsu_26bit_mask

/-- The word decoder `mipsu_decode`: extract `op`; `op == 0` gives an
R-form field, `op ∈ {2,3}` a J-form field, anything else an I-form
field. -/
def mipsu_decode (w : Nat) : mipsu_field :=
  if mipsu_op w = 0 then
    .R (mipsu_op w) (mipsu_rs w) (mipsu_rt w) (mipsu_rd w) (mipsu_sh w) (mipsu_fn w)
  else if mipsu_op w = 2 ∨ mipsu_op w = 3 then
    .J (mipsu_op w) (mipsu_addr w)
  else
    .I (mipsu_op w) (mipsu_rs w) (mipsu_rt w) (mipsu_imm w)

/-- The word encoder `mipsu_encode`.  Each `(mipsu_word_t)x << k` is a
`uint32_t` shift, hence the `% 4294967296`; the sub-fields themselves are
not masked (only the I-form immediate is `& 0xFFFF`-masked after the
`int16_t → uint32_t` conversion). -/
def mipsu_encode : mipsu_field → Nat
  | .R op rs rt rd sh fn =>
      ((op <<< mipsu_op_offset) % 4294967296) |||
      ((rs <<< mipsu_rs_offset) % 4294967296) |||
      ((rt <<< mipsu_rt_offset) % 4294967296) |||
      ((rd <<< mipsu_rd_offset) % 4294967296) |||
      (((sh <<< mipsu_sh_offset) % 4294967296) ||| fn)
  | .I op rs rt imm =>
      ((op <<< mipsu_op_offset) % 4294967296) |||
      ((rs <<< mipsu_rs_offset) % 4294967296) |||
      ((rt <<< mipsu_rt_offset) % 4294967296) |||
      (mipsu_uint32_of_int imm &&& mipsu_16bit_mask)
  | .J op addr =>
      ((op <<< mipsu_op_offset) % 4294967296) ||| addr

/-- All sub-fields of the field are within their declared bit widths
(registers and shift 5 bits, `op` and `fn` 6 bits, `imm` a signed 16-bit
value, `addr` 26 bits). -/
def mipsu_field_in_width : mipsu_field → Prop
  | .R op rs rt rd sh fn => op < 64 ∧ rs < 32 ∧ rt < 32 ∧ rd < 32 ∧ sh < 32 ∧ fn < 64
  | .I op rs rt imm => op < 64 ∧ rs < 32 ∧ rt < 32 ∧ -32768 ≤ imm ∧ imm < 32768
  | .J op addr => op < 64 ∧ addr < 67108864

/-- The tagging rule: the form tag is the one `op` dictates (`R` iff
`op = 0`, `J` iff `op ∈ {2,3}`, `I` otherwise). -/
def mipsu_tag_ok : mipsu_field → Prop
  | .R op _ _ _ _ _ => op = 0
  | .I op _ _ _ => op ≠ 0 ∧ op ≠ 2 ∧ op ≠ 3
  | .J op _ => op = 2 ∨ op = 3

/-- A well-formed field: sub-fields in width and tag consistent with `op`. -/
def mipsu_field_wf (f : mipsu_field) : Prop :=
  mipsu_field_in_width f ∧ mipsu_tag_ok f

instance (f : mipsu_field) : Decidable (mipsu_field_in_width f) := by
  cases f <;> (unfold mipsu_field_in_width; infer_instance)

instance (f : mipsu_field) : Decidable (mipsu_tag_ok f) := by
  cases f <;> (unfold mipsu_tag_ok; infer_instance)

instance (f : mipsu_field) : Decidable (mipsu_field_wf f) := by
  unfold mipsu_field_wf; infer_instance

/-! ### Arithmetic bridges for the codec -/

theorem mipsu_and_63 (x : Nat) : x &&& 63 = x % 64 := by
  have h : (63 : Nat) = 2 ^ 6 - 1 := rfl
  rw [h, Nat.and_pow_two_sub_one_eq_mod]

theorem mipsu_and_31 (x : Nat) : x &&& 31 = x % 32 := by
  have h : (31 : Nat) = 2 ^ 5 - 1 := rfl
  rw [h, Nat.and_pow_two_sub_one_eq_mod]

theorem mipsu_and_65535 (x : Nat) : x &&& 65535 = x % 65536 := by
  have h : (65535 : Nat) = 2 ^ 16 - 1 := rfl
  rw [h, Nat.and_pow_two_sub_one_eq_mod]

theorem mipsu_and_26mask (x : Nat) : x &&& 67108863 = x % 67108864 := by
  have h : (67108863 : Nat) = 2 ^ 26 - 1 := rfl
  rw [h, Nat.and_pow_two_sub_one_eq_mod]

theorem mipsu_op_eq (w : Nat) : mipsu_op w = w / 2 ^ 26 % 64 := by
  unfold mipsu_op mipsu_op_offset mipsu_6bit_mask
  rw [Nat.shiftRight_eq_div_pow, mipsu_and_63]

theorem mipsu_rs_eq (w : Nat) : mipsu_rs w = w / 2 ^ 21 % 32 := by
  unfold mipsu_rs mipsu_rs_offset mipsu_5bit_mask
  rw [Nat.shiftRight_eq_div_pow, mipsu_and_31]

theorem mipsu_rt_eq (w : Nat) : mipsu_rt w = w / 2 ^ 16 % 32 := by
  unfold mipsu_rt mipsu_rt_offset mipsu_5bit_mask
  rw [Nat.shiftRight_eq_div_pow, mipsu_and_31]

theorem mipsu_rd_eq (w : Nat) : mipsu_rd w = w / 2 ^ 11 % 32 := by
  unfold mipsu_rd mipsu_rd_offset mipsu_5bit_mask
  rw [Nat.shiftRight_eq_div_pow, mipsu_and_31]

theorem mipsu_sh_eq (w : Nat) : mipsu_sh w = w / 2 ^ 6 % 32 := by
  unfold mipsu_sh mipsu_sh_offset mipsu_5bit_mask
  rw [Nat.shiftRight_eq_div_pow, mipsu_and_31]

theorem mipsu_fn_eq (w : Nat) : mipsu_fn w = w % 64 := by
  unfold mipsu_fn mipsu_6bit_mask
  exact mipsu_and_63 w

theorem mipsu_imm_eq (w : Nat) : mipsu_imm w = mipsu_int16_of (w % 65536) := by
  unfold mipsu_imm mipsu_16bit_mask
  rw [mipsu_and_65535]

theorem mipsu_addr_eq (w : Nat) : mipsu_addr w = w % 67108864 := by
  unfold mipsu_addr mipsu_26bit_mask
  exact mipsu_and_26mask w

theorem mipsu_lor_add {i a b : Nat} (h : b < 2 ^ i) :
    a * 2 ^ i ||| b = a * 2 ^ i + b := by
  rw [Nat.mul_comm]
  exact (Nat.mul_add_lt_is_or h a).symm

theorem mipsu_encode_R_eq (op rs rt rd sh fn : Nat)
    (hop : op < 64) (hrs : rs < 32) (hrt : rt < 32)
    (hrd : rd < 32) (hsh : sh < 32) (hfn : fn < 64) :
    mipsu_encode (.R op rs rt rd sh fn) =
      op * 2 ^ 26 + rs * 2 ^ 21 + rt * 2 ^ 16 + rd * 2 ^ 11 + sh * 2 ^ 6 + fn := by
  show ((op <<< 26) % 4294967296) ||| ((rs <<< 21) % 4294967296) |||
      ((rt <<< 16) % 4294967296) ||| ((rd <<< 11) % 4294967296) |||
      (((sh <<< 6) % 4294967296) ||| fn) = _
  rw [Nat.shiftLeft_eq, Nat.shiftLeft_eq, Nat.shiftLeft_eq, Nat.shiftLeft_eq,
    Nat.shiftLeft_eq]
  rw [Nat.mod_eq_of_lt (by omega), Nat.mod_eq_of_lt (by omega),
    Nat.mod_eq_of_lt (by omega), Nat.mod_eq_of_lt (by omega),
    Nat.mod_eq_of_lt (by omega)]
  rw [Nat.or_assoc, Nat.or_assoc, Nat.or_assoc]
  rw [mipsu_lor_add (show fn < 2 ^ 6 by omega)]
  rw [mipsu_lor_add (show sh * 2 ^ 6 + fn < 2 ^ 11 by omega)]
  rw [mipsu_lor_add (show rd * 2 ^ 11 + (sh * 2 ^ 6 + fn) < 2 ^ 16 by omega)]
  rw [mipsu_lor_add (show rt * 2 ^ 16 + (rd * 2 ^ 11 + (sh * 2 ^ 6 + fn)) < 2 ^ 21 by omega)]
  rw [mipsu_lor_add
    (show rs * 2 ^ 21 + (rt * 2 ^ 16 + (rd * 2 ^ 11 + (sh * 2 ^ 6 + fn))) < 2 ^ 26 by omega)]
  omega

theorem mipsu_imm_bits_eq (imm : Int) (h1 : -32768 ≤ imm) (h2 : imm < 32768) :
    mipsu_uint32_of_int imm &&& mipsu_16bit_mask = (imm % 65536).toNat := by
  show mipsu_uint32_of_int imm &&& 65535 = _
  rw [mipsu_and_65535]
  unfold mipsu_uint32_of_int
  omega

theorem mipsu_encode_I_eq (op rs rt : Nat) (imm : Int)
    (hop : op < 64) (hrs : rs < 32) (hrt : rt < 32)
    (h1 : -32768 ≤ imm) (h2 : imm < 32768) :
    mipsu_encode (.I op rs rt imm) =
      op * 2 ^ 26 + rs * 2 ^ 21 + rt * 2 ^ 16 + (imm % 65536).toNat := by
  show ((op <<< 26) % 4294967296) ||| ((rs <<< 21) % 4294967296) |||
      ((rt <<< 16) % 4294967296) ||| (mipsu_uint32_of_int imm &&& mipsu_16bit_mask) = _
  rw [mipsu_imm_bits_eq imm h1 h2]
  rw [Nat.shiftLeft_eq, Nat.shiftLeft_eq, Nat.shiftLeft_eq]
  rw [Nat.mod_eq_of_lt (by omega), Nat.mod_eq_of_lt (by omega),
    Nat.mod_eq_of_lt (by omega)]
  rw [Nat.or_assoc, Nat.or_assoc]
  rw [mipsu_lor_add (show (imm % 65536).toNat < 2 ^ 16 by omega)]
  rw [mipsu_lor_add (show rt * 2 ^ 16 + (imm % 65536).toNat < 2 ^ 21 by omega)]
  rw [mipsu_lor_add
    (show rs * 2 ^ 21 + (rt * 2 ^ 16 + (imm % 65536).toNat) < 2 ^ 26 by omega)]
  omega

theorem mipsu_encode_J_eq (op addr : Nat) (hop : op < 64) (haddr : addr < 67108864) :
    mipsu_encode (.J op addr) = op * 2 ^ 26 + addr := by
  show ((op <<< 26) % 4294967296) ||| addr = _
  rw [Nat.shiftLeft_eq, Nat.mod_eq_of_lt (by omega)]
  rw [mipsu_lor_add (show addr < 2 ^ 26 by omega)]

/-- Round trip word → field → word: re-encoding a decoded word restores
the word. -/
theorem mipsu_encode_decode (w : Nat) (h : w < 4294967296) :
    mipsu_encode (mipsu_decode w) = w := by
  unfold mipsu_decode
  by_cases h0 : mipsu_op w = 0
  · rw [if_pos h0]
    rw [mipsu_encode_R_eq _ _ _ _ _ _
      (by rw [mipsu_op_eq]; omega) (by rw [mipsu_rs_eq]; omega)
      (by rw [mipsu_rt_eq]; omega) (by rw [mipsu_rd_eq]; omega)
      (by rw [mipsu_sh_eq]; omega) (by rw [mipsu_fn_eq]; omega)]
    rw [mipsu_op_eq] at h0
    rw [mipsu_op_eq, mipsu_rs_eq, mipsu_rt_eq, mipsu_rd_eq, mipsu_sh_eq, mipsu_fn_eq]
    omega
  · rw [if_neg h0]
    by_cases h23 : mipsu_op w = 2 ∨ mipsu_op w = 3
    · rw [if_pos h23]
      rw [mipsu_encode_J_eq _ _ (by rw [mipsu_op_eq]; omega)
        (by rw [mipsu_addr_eq]; omega)]
      rw [mipsu_op_eq, mipsu_addr_eq]
      rw [mipsu_op_eq] at h23
      omega
    · rw [if_neg h23]
      have himm1 : -32768 ≤ mipsu_imm w := by
        rw [mipsu_imm_eq]; unfold mipsu_int16_of; split <;> omega
      have himm2 : mipsu_imm w < 32768 := by
        rw [mipsu_imm_eq]; unfold mipsu_int16_of; split <;> omega
      rw [mipsu_encode_I_eq _ _ _ _ (by rw [mipsu_op_eq]; omega)
        (by rw [mipsu_rs_eq]; omega) (by rw [mipsu_rt_eq]; omega) himm1 himm2]
      have himb : (mipsu_imm w % 65536).toNat = w % 65536 := by
        rw [mipsu_imm_eq]; unfold mipsu_int16_of; split <;> omega
      rw [himb, mipsu_op_eq, mipsu_rs_eq, mipsu_rt_eq]
      rw [mipsu_op_eq] at h0 h23
      omega

/-- Round trip field → word → field: decoding an encoded well-formed field
restores the field. -/
theorem mipsu_decode_encode (f : mipsu_field) (h : mipsu_field_wf f) :
    mipsu_decode (mipsu_encode f) = f := by
  obtain ⟨hw, ht⟩ := h
  cases f with
  | R op rs rt rd sh fn =>
    obtain ⟨hop, hrs, hrt, hrd, hsh, hfn⟩ := hw
    have hop0 : op = 0 := ht
    subst hop0
    rw [mipsu_encode_R_eq _ _ _ _ _ _ hop hrs hrt hrd hsh hfn]
    unfold mipsu_decode
    rw [mipsu_op_eq, mipsu_rs_eq, mipsu_rt_eq, mipsu_rd_eq, mipsu_sh_eq, mipsu_fn_eq]
    rw [if_pos (by omega)]
    congr 1 <;> omega
  | I op rs rt imm =>
    obtain ⟨hop, hrs, hrt, h1, h2⟩ := hw
    obtain ⟨hne0, hne2, hne3⟩ := ht
    rw [mipsu_encode_I_eq _ _ _ _ hop hrs hrt h1 h2]
    unfold mipsu_decode
    rw [mipsu_op_eq, mipsu_rs_eq, mipsu_rt_eq, mipsu_imm_eq]
    have hopv : (op * 2 ^ 26 + rs * 2 ^ 21 + rt * 2 ^ 16 + (imm % 65536).toNat)
        / 2 ^ 26 % 64 = op := by omega
    rw [if_neg (by omega), if_neg (by omega)]
    have himmv : mipsu_int16_of
        ((op * 2 ^ 26 + rs * 2 ^ 21 + rt * 2 ^ 16 + (imm % 65536).toNat) % 65536)
        = imm := by
      unfold mipsu_int16_of; split <;> omega
    rw [himmv]
    congr 1 <;> omega
  | J op addr =>
    obtain ⟨hop, haddr⟩ := hw
    rw [mipsu_encode_J_eq _ _ hop haddr]
    unfold mipsu_decode
    rw [mipsu_op_eq, mipsu_addr_eq]
    have hopv : (op * 2 ^ 26 + addr) / 2 ^ 26 % 64 = op := by omega
    rcases ht with h2 | h3
    · rw [if_neg (by omega), if_pos (by omega)]
      congr 1 <;> omega
    · rw [if_neg (by omega), if_pos (by omega)]
      congr 1 <;> omega

/-- C1: `decode` and `encode` are exact inverses: `encode (decode w) = w`
for every 32-bit word `w`, and `decode (encode f) = f` for every field
whose sub-fields are within their declared bit widths and whose tag is
consistent with its `op`. -/
theorem mipsu_C1_codec_inverses :
    (∀ w : Nat, w < 2 ^ 32 → mipsu_encode (mipsu_decode w) = w) ∧
    (∀ f : mipsu_field, mipsu_field_wf f → mipsu_decode (mipsu_encode f) = f) := by
  constructor
  · intro w hw
    exact mipsu_encode_decode w (by omega)
  · intro f hf
    exact mipsu_decode_encode f hf

/-- Witness for C1 at concrete inputs. -/
theorem mipsu_C1_witness :
    mipsu_encode (mipsu_decode 0x00221820) = 0x00221820 ∧
    mipsu_decode (mipsu_encode (.I 8 0 8 10)) = .I 8 0 8 10 := by
  constructor
  · exact mipsu_C1_codec_inverses.1 0x00221820 (by norm_num)
  · exact mipsu_C1_codec_inverses.2 (.I 8 0 8 10) (by decide)

/-! ### C2: does `encode` mask out-of-range sub-fields? -/

/-- The encoder as the spec's words for claim C2 describe it: every
sub-field is first truncated to its declared bit width by masking
(mirroring the decode extraction masks) and then packed.  This definition
follows the spec, not the source, and is compared against `mipsu_encode`. -/
def mipsu_encode_claimed : mipsu_field → Nat
  | .R op rs rt rd sh fn =>
      ((op % 64) <<< 26) ||| ((rs % 32) <<< 21) ||| ((rt % 32) <<< 16) |||
      ((rd % 32) <<< 11) ||| ((sh % 32) <<< 6) ||| (fn % 64)
  | .I op rs rt imm =>
      ((op % 64) <<< 26) ||| ((rs % 32) <<< 21) ||| ((rt % 32) <<< 16) |||
      (mipsu_uint32_of_int imm % 65536)
  | .J op addr =>
      ((op % 64) <<< 26) ||| (addr % 67108864)

/-- C2 counterexample: for the R-form field with the out-of-range register
index `rs = 32`, the real encoder does not truncate `rs` to its 5-bit
width: the bit spills into the `op` position instead of being masked
away, so the encoded word differs from the masked packing the claim
describes. -/
theorem mipsu_C2_counterexample :
    mipsu_encode (.R 0 32 0 0 0 0) ≠ mipsu_encode_claimed (.R 0 32 0 0 0 0) := by
  decide

/-- C2 amended: `encode` never fails (it is a total function), but it does
not mask sub-fields to their declared bit widths; only the I-form
immediate is masked to 16 bits and each shifted term is reduced modulo
`2^32`.  For fields whose sub-fields are within their declared widths the
result coincides with the masked packing the claim describes; an
out-of-range sub-field instead spills into adjacent bit positions. -/
theorem mipsu_C2_amended (f : mipsu_field) (h : mipsu_field_in_width f) :
    mipsu_encode f = mipsu_encode_claimed f := by
  cases f with
  | R op rs rt rd sh fn =>
    obtain ⟨hop, hrs, hrt, hrd, hsh, hfn⟩ := h
    show ((op <<< 26) % 4294967296) ||| ((rs <<< 21) % 4294967296) |||
        ((rt <<< 16) % 4294967296) ||| ((rd <<< 11) % 4294967296) |||
        (((sh <<< 6) % 4294967296) ||| fn) =
        ((op % 64) <<< 26) ||| ((rs % 32) <<< 21) ||| ((rt % 32) <<< 16) |||
        ((rd % 32) <<< 11) ||| ((sh % 32) <<< 6) ||| (fn % 64)
    rw [Nat.mod_eq_of_lt hop, Nat.mod_eq_of_lt hrs, Nat.mod_eq_of_lt hrt,
      Nat.mod_eq_of_lt hrd, Nat.mod_eq_of_lt hsh, Nat.mod_eq_of_lt hfn]
    rw [Nat.shiftLeft_eq, Nat.shiftLeft_eq, Nat.shiftLeft_eq, Nat.shiftLeft_eq,
      Nat.shiftLeft_eq]
    rw [Nat.mod_eq_of_lt (by omega), Nat.mod_eq_of_lt (by omega),
      Nat.mod_eq_of_lt (by omega), Nat.mod_eq_of_lt (by omega),
      Nat.mod_eq_of_lt (by omega)]
    simp [Nat.or_assoc]
  | I op rs rt imm =>
    obtain ⟨hop, hrs, hrt, h1, h2⟩ := h
    show ((op <<< 26) % 4294967296) ||| ((rs <<< 21) % 4294967296) |||
        ((rt <<< 16) % 4294967296) ||| (mipsu_uint32_of_int imm &&& mipsu_16bit_mask) =
        ((op % 64) <<< 26) ||| ((rs % 32) <<< 21) ||| ((rt % 32) <<< 16) |||
        (mipsu_uint32_of_int imm % 65536)
    rw [Nat.mod_eq_of_lt hop, Nat.mod_eq_of_lt hrs, Nat.mod_eq_of_lt hrt]
    rw [Nat.shiftLeft_eq, Nat.shiftLeft_eq, Nat.shiftLeft_eq]
    rw [Nat.mod_eq_of_lt (by omega), Nat.mod_eq_of_lt (by omega),
      Nat.mod_eq_of_lt (by omega)]
    show _ ||| (mipsu_uint32_of_int imm &&& 65535) = _
    rw [mipsu_and_65535]
  | J op addr =>
    obtain ⟨hop, haddr⟩ := h
    show ((op <<< 26) % 4294967296) ||| addr =
        ((op % 64) <<< 26) ||| (addr % 67108864)
    rw [Nat.mod_eq_of_lt hop, Nat.mod_eq_of_lt haddr]
    rw [Nat.shiftLeft_eq, Nat.mod_eq_of_lt (by omega)]

/-- Witness for the amended C2 at a concrete in-width field. -/
theorem mipsu_C2_witness :
    mipsu_encode (.R 0 1 2 3 0 32) = mipsu_encode_claimed (.R 0 1 2 3 0 32) :=
  mipsu_C2_amended (.R 0 1 2 3 0 32) (by decide)

/-! ### The literal parser -/

/-- Separator predicate `mipsu_ignore`: space, newline, comma and the two
parenthesis characters. -/
def mipsu_ignore (c : Char) : Bool :=
  match c with
  | ' ' | '\n' | ',' | '(' | ')' => true
  | _ => false

/-- Binary radix specifier test `mipsu_bin_spec`. -/
def mipsu_bin_spec (c : Char) : Bool := c == 'B' || c == 'b'

/-- Hex radix specifier test `mipsu_hex_spec`. -/
def mipsu_hex_spec (c : Char) : Bool := c == 'X' || c == 'x'

/-- Validator `mipsu_bin_valid`: the first `n` characters must exist and be
binary digits (`MISSING_BITS` / `BAD_BIN` otherwise) and the string must
end right after them (`TOO_MANY_BITS` otherwise).  `none` is the OK
status. -/
def mipsu_bin_valid : List Char → Nat → Option mipsu_result
  | s, 0 => if s.isEmpty then none else some .TOO_MANY_BITS
  | [], _ + 1 => some .MISSING_BITS
  | c :: s, n + 1 =>
    if c ≠ '0' ∧ c ≠ '1' then some .BAD_BIN else mipsu_bin_valid s n

/-- Validator `mipsu_hex_valid`, as `mipsu_bin_valid` but for hex digits
(a character is accepted when it is `'0'` or has a nonzero `mipsu_hex_lut`
value, exactly as the C test `s[i] != '0' && !mipsu_hex_lut[s[i]]`). -/
def mipsu_hex_valid : List Char → Nat → Option mipsu_result
  | s, 0 => if s.isEmpty then none else some .TOO_MANY_HEXITS
  | [], _ + 1 => some .MISSING_HEXITS
  | c :: s, n + 1 =>
    if c ≠ '0' ∧ mipsu_hex_lut c = 0 then some .BAD_HEX else mipsu_hex_valid s n

/-- Digit accumulator `mipsu_get_value`: fold the first `n` characters into
a `uint32_t` value, shifting by `sh` bits per digit. -/
def mipsu_get_value (s : List Char) (n : Nat) (sh : Nat) : Nat :=
  (s.take n).foldl (fun v c => ((v <<< sh) % 4294967296) ||| mipsu_hex_lut c) 0

/-- Whitespace as skipped by `strtol`. -/
def mipsu_is_space (c : Char) : Bool :=
  c == ' ' || c == '\t' || c == '\n' || c == Char.ofNat 11 || c == Char.ofNat 12 ||
    c == '\r'

/-- Model of `strtol(s, &e, 10)`: skip whitespace, take an optional sign
and a run of decimal digits; returns the value and the unconsumed suffix
(where `e` points).  When no digits are present the value is `0` and
nothing is consumed.  The `LONG_MAX`/`LONG_MIN` clamping of the C library
is not modelled; for the bit widths used by the program (`≤ 32`) the
accept/reject verdicts and accepted values are unaffected. -/
def mipsu_strtol (s : List Char) : Int × List Char :=
  let s1 := s.dropWhile mipsu_is_space
  let neg : Bool := s1.head? == some '-'
  let s2 := if neg || (s1.head? == some '+') then s1.tail else s1
  let digits := s2.takeWhile Char.isDigit
  let rest := s2.dropWhile Char.isDigit
  if digits.isEmpty then (0, s)
  else
    let v : Int := ((digits.foldl (fun a c => a * 10 + (c.toNat - 48)) 0 : Nat) : Int)
    (if neg then -v else v, rest)

/-- Decimal parser `mipsu_parse_decimal`: `strtol` the whole string
(`BAD_DEC` on trailing garbage), then range-check the value: unsigned
values must be non-negative (`FIELD_SIGN`) and below `2 << b`
(`FIELD_OVERFLOW`); signed values must have absolute value below
`1 << b`. -/
def mipsu_parse_decimal (s : List Char) (u : Bool) (b : Nat) :
    Except mipsu_result Int :=
  let ve := mipsu_strtol s
  if ¬ ve.2.isEmpty then .error .BAD_DEC
  else if u then
    if ve.1 < 0 then .error .FIELD_SIGN
    else if ve.1 ≥ 2 * 2 ^ b then .error .FIELD_OVERFLOW
    else .ok ve.1
  else if ve.1.natAbs ≥ 2 ^ b then .error .FIELD_OVERFLOW
  else .ok ve.1

/-- The literal parser `mipsu_parse_value` for a width of `b` bits.  A
string not starting with `'0'` goes down the decimal path (the resulting
`int64_t` is converted to `uint32_t` for the out parameter); otherwise the
second character selects hex ( `(b+3)/4` digits, shift 4) or binary
(`b` digits, shift 1), anything else being `BAD_RADIX`; prefixed forms
additionally reject values `≥ 1 << b` unless `b = 32`. -/
def mipsu_parse_value (s : List Char) (u : Bool) (b : Nat) :
    Except mipsu_result Nat :=
  match s with
  | [] =>
    -- the first character is the NUL terminator, which is not '0'
    match mipsu_parse_decimal [] u b with
    | .error r => .error r
    | .ok l => .ok (mipsu_uint32_of_int l)
  | c0 :: rest =>
    if c0 ≠ '0' then
      match mipsu_parse_decimal (c0 :: rest) u b with
      | .error r => .error r
      | .ok l => .ok (mipsu_uint32_of_int l)
    else
      match rest with
      | [] => .error .BAD_RADIX  -- s[1] is the NUL terminator
      | c1 :: rest2 =>
        if mipsu_hex_spec c1 then
          match mipsu_hex_valid rest2 ((b + 3) / 4) with
          | some r => .error r
          | none =>
            let v := mipsu_get_value rest2 ((b + 3) / 4) 4
            if b ≠ 32 ∧ v ≥ 2 ^ b then .error .FIELD_OVERFLOW else .ok v
        else if mipsu_bin_spec c1 then
          match mipsu_bin_valid rest2 b with
          | some r => .error r
          | none =>
            let v := mipsu_get_value rest2 b 1
            if b ≠ 32 ∧ v ≥ 2 ^ b then .error .FIELD_OVERFLOW else .ok v
        else .error .BAD_RADIX

/-- Word parser `mipsu_parse_word`: unsigned, 32 bits. -/
def mipsu_parse_word (s : List Char) : Except mipsu_result Nat :=
  mipsu_parse_value s true 32

/-- Immediate parser `mipsu_parse_imm`: signed, 16 bits; the `uint32_t`
result is stored into an `int16_t`, i.e. reduced mod `2^16` and
reinterpreted as two's complement. -/
def mipsu_parse_imm (s : List Char) : Except mipsu_result Int :=
  (mipsu_parse_value s false 16).map (fun w => mipsu_int16_of (w % 65536))

/-- Shift parser `mipsu_parse_sh`: unsigned, 5 bits; stored into a
`uint8_t`. -/
def mipsu_parse_sh (s : List Char) : Except mipsu_result Nat :=
  (mipsu_parse_value s true 5).map (fun w => w % 256)

/-- Address parser `mipsu_parse_addr`: a 32-bit word parse followed by an
explicit 26-bit ceiling re-check.  (On the word-parse failure path the C
code inspects the uninitialized `w` and may return `FIELD_OVERFLOW`
instead of the word error; the claims only exercise the success path, so
the model simply propagates the error.) -/
def mipsu_parse_addr (s : List Char) : Except mipsu_result Nat :=
  match mipsu_parse_word s with
  | .ok w => if w ≥ 67108864 then .error .FIELD_OVERFLOW else .ok w
  | .error r => .error r

/-! ### C6: decimal literal ranges -/

def mipsu_dec_value (ds : List Char) : Nat :=
  ds.foldl (fun a c => a * 10 + (c.toNat - 48)) 0

theorem mipsu_takeWhile_all {α : Type} (p : α → Bool) (l : List α)
    (h : ∀ c ∈ l, p c = true) : l.takeWhile p = l := by
  induction l with
  | nil => rfl
  | cons a l ih =>
    rw [List.takeWhile_cons_of_pos (h a (by simp))]
    rw [ih (fun c hc => h c (by simp [hc]))]

theorem mipsu_dropWhile_all {α : Type} (p : α → Bool) (l : List α)
    (h : ∀ c ∈ l, p c = true) : l.dropWhile p = [] := by
  induction l with
  | nil => rfl
  | cons a l ih =>
    rw [List.dropWhile_cons_of_pos (h a (by simp))]
    exact ih (fun c hc => h c (by simp [hc]))

theorem mipsu_digit_not_special {c : Char} (h : c.isDigit = true) :
    mipsu_is_space c = false ∧ (c == '-') = false ∧ (c == '+') = false := by
  simp only [Char.isDigit, Bool.and_eq_true, decide_eq_true_eq] at h
  obtain ⟨h1, h2⟩ := h
  have hv1 : 48 ≤ c.toNat := h1
  have hv2 : c.toNat ≤ 57 := h2
  refine ⟨?_, ?_, ?_⟩
  · unfold mipsu_is_space
    have e1 : (c == ' ') = false := by
      rw [beq_eq_false_iff_ne]; intro he; subst he; simp [Char.toNat, UInt32.size] at hv1
    have e2 : (c == '\t') = false := by
      rw [beq_eq_false_iff_ne]; intro he; subst he; simp [Char.toNat, UInt32.size] at hv1
    have e3 : (c == '\n') = false := by
      rw [beq_eq_false_iff_ne]; intro he; subst he; simp [Char.toNat, UInt32.size] at hv1
    have e4 : (c == Char.ofNat 11) = false := by
      rw [beq_eq_false_iff_ne]; intro he; subst he; simp [Char.toNat, UInt32.size] at hv1
    have e5 : (c == Char.ofNat 12) = false := by
      rw [beq_eq_false_iff_ne]; intro he; subst he; simp [Char.toNat, UInt32.size] at hv1
    have e6 : (c == '\r') = false := by
      rw [beq_eq_false_iff_ne]; intro he; subst he; simp [Char.toNat, UInt32.size] at hv1
    rw [e1, e2, e3, e4, e5, e6]
    rfl
  · rw [beq_eq_false_iff_ne]; intro he; subst he; simp [Char.toNat, UInt32.size] at hv1
  · rw [beq_eq_false_iff_ne]; intro he; subst he; simp [Char.toNat, UInt32.size] at hv1

theorem mipsu_strtol_digits (ds : List Char) (hne : ds ≠ [])
    (hds : ∀ x ∈ ds, x.isDigit = true) :
    mipsu_strtol ds = (((mipsu_dec_value ds : Nat) : Int), []) := by
  obtain ⟨c, ds', rfl⟩ := List.exists_cons_of_ne_nil hne
  have hc := hds c (by simp)
  obtain ⟨hsp, hminus, hplus⟩ := mipsu_digit_not_special hc
  unfold mipsu_strtol
  rw [List.dropWhile_cons_of_neg (by simp [hsp])]
  simp only [List.head?_cons,
    show ((some c == some '-') : Bool) = false from by simp [hminus],
    show ((some c == some '+') : Bool) = false from by simp [hplus],
    Bool.false_or, if_false]
  simp [mipsu_takeWhile_all _ _ hds, mipsu_dropWhile_all _ _ hds, mipsu_dec_value]

theorem mipsu_strtol_neg_digits (ds : List Char) (hne : ds ≠ [])
    (hds : ∀ x ∈ ds, x.isDigit = true) :
    mipsu_strtol ('-' :: ds) = (-((mipsu_dec_value ds : Nat) : Int), []) := by
  unfold mipsu_strtol
  rw [List.dropWhile_cons_of_neg (by decide)]
  simp only [List.head?_cons,
    show ((some '-' == some '-') : Bool) = true from by decide,
    Bool.true_or, if_true, List.tail_cons]
  simp [mipsu_takeWhile_all _ _ hds, mipsu_dropWhile_all _ _ hds, mipsu_dec_value,
    List.isEmpty_iff, hne]

theorem mipsu_parse_decimal_eq (s : List Char) (u : Bool) (b : Nat) (v : Int)
    (h : mipsu_strtol s = (v, [])) :
    mipsu_parse_decimal s u b =
      (if u then
        if v < 0 then .error .FIELD_SIGN
        else if v ≥ 2 * 2 ^ b then .error .FIELD_OVERFLOW
        else .ok v
      else if v.natAbs ≥ 2 ^ b then .error .FIELD_OVERFLOW
      else .ok v) := by
  unfold mipsu_parse_decimal
  rw [h]
  simp

theorem mipsu_parse_value_dec (c0 : Char) (rest : List Char) (u : Bool) (b : Nat)
    (h0 : c0 ≠ '0') :
    mipsu_parse_value (c0 :: rest) u b =
      (match mipsu_parse_decimal (c0 :: rest) u b with
       | .error r => .error r
       | .ok l => .ok (mipsu_uint32_of_int l)) := by
  simp only [mipsu_parse_value]
  rw [if_pos h0]

/-- C6: decimal literals.  For a (possibly `'-'`-prefixed) run of decimal
digits not starting with `'0'`, of value `v`: when parsed signed the
literal is accepted iff `|v| < 2^bits` and rejected with `FIELD_OVERFLOW`
otherwise; when parsed unsigned a negative value is rejected with
`FIELD_SIGN` and the overflow threshold is `2·2^bits`, so values
`2^bits ≤ v < 2^(bits+1)` are still accepted. -/
theorem mipsu_C6_decimal_ranges (neg : Bool) (ds : List Char) (u : Bool) (b : Nat)
    (hne : ds ≠ []) (hds : ∀ x ∈ ds, x.isDigit = true)
    (h0 : neg = false → ds.head? ≠ some '0') :
    mipsu_parse_value (if neg then '-' :: ds else ds) u b =
      (let v : Int := if neg then -((mipsu_dec_value ds : Nat) : Int)
                      else ((mipsu_dec_value ds : Nat) : Int)
       if u then
         if v < 0 then .error .FIELD_SIGN
         else if v ≥ 2 * 2 ^ b then .error .FIELD_OVERFLOW
         else .ok (mipsu_uint32_of_int v)
       else if v.natAbs ≥ 2 ^ b then .error .FIELD_OVERFLOW
       else .ok (mipsu_uint32_of_int v)) := by
  cases neg with
  | true =>
    rw [if_pos rfl]
    rw [mipsu_parse_value_dec _ _ _ _ (by decide)]
    rw [mipsu_parse_decimal_eq _ _ _ _ (mipsu_strtol_neg_digits ds hne hds)]
    cases u <;> simp <;> split_ifs <;> rfl
  | false =>
    obtain ⟨c, ds', rfl⟩ := List.exists_cons_of_ne_nil hne
    rw [if_neg (by simp)]
    have hc0 : c ≠ '0' := by
      intro he
      exact (h0 rfl) (by rw [he]; rfl)
    rw [mipsu_parse_value_dec _ _ _ _ hc0]
    rw [mipsu_parse_decimal_eq _ _ _ _ (mipsu_strtol_digits _ (by simp) hds)]
    cases u <;> simp <;> split_ifs <;> rfl

/-- Witness for C6: the decimal literal 10 parsed signed at 16 bits is
accepted with value 10, and 70000 parsed signed at 16 bits overflows. -/
theorem mipsu_C6_witness :
    mipsu_parse_value "10".data false 16 = .ok 10 ∧
    mipsu_parse_value "70000".data false 16 = .error .FIELD_OVERFLOW := by
  constructor
  · have h := mipsu_C6_decimal_ranges false "10".data false 16 (by decide) (by decide)
      (by decide)
    simpa using h
  · have h := mipsu_C6_decimal_ranges false "70000".data false 16 (by decide) (by decide)
      (by decide)
    simpa using h

deriving instance DecidableEq for Except

/-! ### C7: hex literal digit counts and overflow -/

/-- A character the hex validator accepts: `'0'` itself or any character
with a nonzero `mipsu_hex_lut` value. -/
def mipsu_is_hexit (c : Char) : Bool := c == '0' || decide (mipsu_hex_lut c ≠ 0)

/-- A character the binary validator accepts. -/
def mipsu_is_bit (c : Char) : Bool := c == '0' || c == '1'

theorem mipsu_hex_valid_missing (cs : List Char) (n : Nat)
    (hlen : cs.length < n) (hall : ∀ c ∈ cs, mipsu_is_hexit c = true) :
    mipsu_hex_valid cs n = some .MISSING_HEXITS := by
  induction cs generalizing n with
  | nil =>
    cases n with
    | zero => omega
    | succ m => rfl
  | cons c cs ih =>
    cases n with
    | zero => omega
    | succ m =>
      have hc := hall c (by simp)
      unfold mipsu_hex_valid
      rw [if_neg (by
        unfold mipsu_is_hexit at hc
        simp only [Bool.or_eq_true, beq_iff_eq, decide_eq_true_eq] at hc
        tauto)]
      exact ih m (by simpa using hlen) (fun d hd => hall d (by simp [hd]))

theorem mipsu_hex_valid_bad (pre : List Char) (c : Char) (suf : List Char) (n : Nat)
    (hlen : pre.length < n) (hall : ∀ d ∈ pre, mipsu_is_hexit d = true)
    (hc : mipsu_is_hexit c = false) :
    mipsu_hex_valid (pre ++ c :: suf) n = some .BAD_HEX := by
  induction pre generalizing n with
  | nil =>
    cases n with
    | zero => omega
    | succ m =>
      simp only [List.nil_append]
      unfold mipsu_hex_valid
      rw [if_pos (by
        unfold mipsu_is_hexit at hc
        simp only [Bool.or_eq_false_iff, beq_eq_false_iff_ne, decide_eq_false_iff_not,
          Decidable.not_not] at hc
        tauto)]
  | cons p pre ih =>
    cases n with
    | zero => omega
    | succ m =>
      have hp := hall p (by simp)
      simp only [List.cons_append]
      unfold mipsu_hex_valid
      rw [if_neg (by
        unfold mipsu_is_hexit at hp
        simp only [Bool.or_eq_true, beq_iff_eq, decide_eq_true_eq] at hp
        tauto)]
      exact ih m (by simpa using hlen) (fun d hd => hall d (by simp [hd]))

theorem mipsu_hex_valid_toomany (pre suf : List Char) (n : Nat)
    (hlen : pre.length = n) (hsuf : suf ≠ [])
    (hall : ∀ d ∈ pre, mipsu_is_hexit d = true) :
    mipsu_hex_valid (pre ++ suf) n = some .TOO_MANY_HEXITS := by
  induction pre generalizing n with
  | nil =>
    subst hlen
    unfold mipsu_hex_valid
    simp [List.isEmpty_iff, hsuf]
  | cons p pre ih =>
    cases n with
    | zero => simp at hlen
    | succ m =>
      have hp := hall p (by simp)
      simp only [List.cons_append]
      unfold mipsu_hex_valid
      rw [if_neg (by
        unfold mipsu_is_hexit at hp
        simp only [Bool.or_eq_true, beq_iff_eq, decide_eq_true_eq] at hp
        tauto)]
      exact ih m (by simpa using hlen) (fun d hd => hall d (by simp [hd]))

theorem mipsu_hex_valid_ok (cs : List Char) (n : Nat)
    (hlen : cs.length = n) (hall : ∀ d ∈ cs, mipsu_is_hexit d = true) :
    mipsu_hex_valid cs n = none := by
  induction cs generalizing n with
  | nil =>
    subst hlen
    rfl
  | cons c cs ih =>
    cases n with
    | zero => simp at hlen
    | succ m =>
      have hc := hall c (by simp)
      unfold mipsu_hex_valid
      rw [if_neg (by
        unfold mipsu_is_hexit at hc
        simp only [Bool.or_eq_true, beq_iff_eq, decide_eq_true_eq] at hc
        tauto)]
      exact ih m (by simpa using hlen) (fun d hd => hall d (by simp [hd]))

theorem mipsu_bin_valid_ok (cs : List Char) (n : Nat)
    (hlen : cs.length = n) (hall : ∀ d ∈ cs, mipsu_is_bit d = true) :
    mipsu_bin_valid cs n = none := by
  induction cs generalizing n with
  | nil =>
    subst hlen
    rfl
  | cons c cs ih =>
    cases n with
    | zero => simp at hlen
    | succ m =>
      have hc := hall c (by simp)
      unfold mipsu_bin_valid
      rw [if_neg (by
        unfold mipsu_is_bit at hc
        simp only [Bool.or_eq_true, beq_iff_eq] at hc
        tauto)]
      exact ih m (by simpa using hlen) (fun d hd => hall d (by simp [hd]))

theorem mipsu_parse_value_hex (x : Char) (cs : List Char) (u : Bool) (b : Nat)
    (hx : mipsu_hex_spec x = true) :
    mipsu_parse_value ('0' :: x :: cs) u b =
      (match mipsu_hex_valid cs ((b + 3) / 4) with
       | some r => .error r
       | none =>
         if b ≠ 32 ∧ mipsu_get_value cs ((b + 3) / 4) 4 ≥ 2 ^ b then
           .error .FIELD_OVERFLOW
         else .ok (mipsu_get_value cs ((b + 3) / 4) 4)) := by
  simp only [mipsu_parse_value]
  rw [if_neg (by simp)]
  rw [if_pos hx]

theorem mipsu_parse_value_bin (x : Char) (cs : List Char) (u : Bool) (b : Nat)
    (hx : mipsu_hex_spec x = false) (hb : mipsu_bin_spec x = true) :
    mipsu_parse_value ('0' :: x :: cs) u b =
      (match mipsu_bin_valid cs b with
       | some r => .error r
       | none =>
         if b ≠ 32 ∧ mipsu_get_value cs b 1 ≥ 2 ^ b then
           .error .FIELD_OVERFLOW
         else .ok (mipsu_get_value cs b 1)) := by
  simp only [mipsu_parse_value]
  rw [if_neg (by simp)]
  rw [if_neg (by simp [hx]), if_pos hb]

/-- C7: hex literals need exactly `⌈bits/4⌉` digits — fewer gives
`MISSING_HEXITS`, a non-hex character gives `BAD_HEX`, trailing characters
give `TOO_MANY_HEXITS` — and for the hex and binary forms values
`≥ 2^bits` are rejected with `FIELD_OVERFLOW` except when `bits = 32`;
in particular `0x1F` at width 5 parses to 31 and `0x20` at width 5
overflows. -/
theorem mipsu_C7_hex_digits :
    (∀ (x : Char) (cs : List Char) (u : Bool) (b : Nat),
       mipsu_hex_spec x = true → cs.length < (b + 3) / 4 →
       (∀ c ∈ cs, mipsu_is_hexit c = true) →
       mipsu_parse_value ('0' :: x :: cs) u b = .error .MISSING_HEXITS) ∧
    (∀ (x c : Char) (pre suf : List Char) (u : Bool) (b : Nat),
       mipsu_hex_spec x = true → pre.length < (b + 3) / 4 →
       (∀ d ∈ pre, mipsu_is_hexit d = true) → mipsu_is_hexit c = false →
       mipsu_parse_value ('0' :: x :: (pre ++ c :: suf)) u b = .error .BAD_HEX) ∧
    (∀ (x : Char) (pre suf : List Char) (u : Bool) (b : Nat),
       mipsu_hex_spec x = true → pre.length = (b + 3) / 4 → suf ≠ [] →
       (∀ d ∈ pre, mipsu_is_hexit d = true) →
       mipsu_parse_value ('0' :: x :: (pre ++ suf)) u b = .error .TOO_MANY_HEXITS) ∧
    (∀ (x : Char) (cs : List Char) (u : Bool) (b : Nat),
       mipsu_hex_spec x = true → cs.length = (b + 3) / 4 →
       (∀ d ∈ cs, mipsu_is_hexit d = true) →
       mipsu_parse_value ('0' :: x :: cs) u b =
         (if b ≠ 32 ∧ mipsu_get_value cs ((b + 3) / 4) 4 ≥ 2 ^ b then
            .error .FIELD_OVERFLOW
          else .ok (mipsu_get_value cs ((b + 3) / 4) 4))) ∧
    (∀ (x : Char) (cs : List Char) (u : Bool) (b : Nat),
       mipsu_hex_spec x = false → mipsu_bin_spec x = true → cs.length = b →
       (∀ d ∈ cs, mipsu_is_bit d = true) →
       mipsu_parse_value ('0' :: x :: cs) u b =
         (if b ≠ 32 ∧ mipsu_get_value cs b 1 ≥ 2 ^ b then .error .FIELD_OVERFLOW
          else .ok (mipsu_get_value cs b 1))) ∧
    mipsu_parse_value "0x1F".data true 5 = .ok 31 ∧
    mipsu_parse_value "0x20".data true 5 = .error .FIELD_OVERFLOW := by
  refine ⟨?_, ?_, ?_, ?_, ?_, by decide, by decide⟩
  · intro x cs u b hx hlen hall
    rw [mipsu_parse_value_hex x cs u b hx]
    rw [mipsu_hex_valid_missing cs _ hlen hall]
  · intro x c pre suf u b hx hlen hall hc
    rw [mipsu_parse_value_hex x _ u b hx]
    rw [mipsu_hex_valid_bad pre c suf _ hlen hall hc]
  · intro x pre suf u b hx hlen hsuf hall
    rw [mipsu_parse_value_hex x _ u b hx]
    rw [mipsu_hex_valid_toomany pre suf _ hlen hsuf hall]
  · intro x cs u b hx hlen hall
    rw [mipsu_parse_value_hex x cs u b hx]
    rw [mipsu_hex_valid_ok cs _ hlen hall]
  · intro x cs u b hx hb hlen hall
    rw [mipsu_parse_value_bin x cs u b hx hb]
    rw [mipsu_bin_valid_ok cs _ hlen hall]

/-- Witness for C7 at concrete inputs of each kind. -/
theorem mipsu_C7_witness :
    mipsu_parse_value "0x1".data true 8 = .error .MISSING_HEXITS ∧
    mipsu_parse_value "0xG1".data true 8 = .error .BAD_HEX ∧
    mipsu_parse_value "0x123".data true 8 = .error .TOO_MANY_HEXITS ∧
    mipsu_parse_value "0xFF".data true 8 = .ok 255 ∧
    mipsu_parse_value "0b11111".data true 5 = .ok 31 := by
  refine ⟨?_, ?_, ?_, ?_, ?_⟩
  · have h := mipsu_C7_hex_digits.1 'x' ['1'] true 8 (by decide) (by decide) (by decide)
    simpa using h
  · have h := mipsu_C7_hex_digits.2.1 'x' 'G' [] ['1'] true 8 (by decide) (by decide)
      (by decide) (by decide)
    simpa using h
  · have h := mipsu_C7_hex_digits.2.2.1 'x' ['1', '2'] ['3'] true 8 (by decide)
      (by decide) (by decide) (by decide)
    simpa using h
  · have h := mipsu_C7_hex_digits.2.2.2.1 'x' ['F', 'F'] true 8 (by decide) (by decide)
      (by decide)
    simpa using h
  · have h := mipsu_C7_hex_digits.2.2.2.2.1 'b' ['1', '1', '1', '1', '1'] true 5
      (by decide) (by decide) (by decide) (by decide)
    simpa using h

/-! ### C10: a bare 0 has no radix -/

/-- C10: `parse_value` rejects the bare numeral `"0"` with `BAD_RADIX`
for every signedness and width, and likewise any text starting with `'0'`
whose second character is neither a hex nor a binary radix specifier
(such as `"01"`); zero must be written with an explicit radix prefix,
e.g. `"0x00"` or `"0b00000"`. -/
theorem mipsu_C10_zero_radix :
    (∀ (u : Bool) (b : Nat), mipsu_parse_value ['0'] u b = .error .BAD_RADIX) ∧
    (∀ (c : Char) (rest : List Char) (u : Bool) (b : Nat),
       mipsu_hex_spec c = false → mipsu_bin_spec c = false →
       mipsu_parse_value ('0' :: c :: rest) u b = .error .BAD_RADIX) ∧
    (∀ (u : Bool) (b : Nat), mipsu_parse_value "01".data u b = .error .BAD_RADIX) ∧
    mipsu_parse_value "0x00".data true 8 = .ok 0 ∧
    mipsu_parse_value "0b00000".data true 5 = .ok 0 := by
  refine ⟨?_, ?_, ?_, by decide, by decide⟩
  · intro u b
    rfl
  · intro c rest u b hx hb
    simp only [mipsu_parse_value]
    rw [if_neg (by simp)]
    rw [if_neg (by simp [hx]), if_neg (by simp [hb])]
  · intro u b
    rfl

/-- Witness for C10 at concrete signedness and width. -/
theorem mipsu_C10_witness :
    mipsu_parse_value ['0'] true 16 = .error .BAD_RADIX ∧
    mipsu_parse_value ['0', '9'] false 16 = .error .BAD_RADIX := by
  constructor
  · exact mipsu_C10_zero_radix.1 true 16
  · exact mipsu_C10_zero_radix.2.1 '9' [] false 16 (by decide) (by decide)

/-! ### The tokenizer -/

theorem mipsu_length_dropWhile_le {α : Type} (p : α → Bool) (l : List α) :
    (l.dropWhile p).length ≤ l.length := by
  induction l with
  | nil => simp
  | cons a l ih =>
    rw [List.dropWhile_cons]
    split
    · exact Nat.le_trans ih (by simp)
    · exact Nat.le_refl _

/-- The scanning loop of `mipsu_parse_asm`: skip separator characters and
collect each maximal run of non-separator characters as one token (the C
loop records a pointer to the run and NUL-terminates it; the model
collects the run itself). -/
def mipsu_tokens (s : List Char) : List (List Char) :=
  match s with
  | [] => []
  | c :: cs =>
    if mipsu_ignore c then mipsu_tokens cs
    else (c :: cs.takeWhile (fun x => !mipsu_ignore x)) ::
      mipsu_tokens (cs.dropWhile (fun x => !mipsu_ignore x))
termination_by s.length
decreasing_by
  · simp only [List.length_cons]
    omega
  · simp only [List.length_cons]
    exact Nat.lt_succ_of_le (mipsu_length_dropWhile_le _ _)

/-- Index of the last byte of the 1024-byte copy buffer,
`mipsu_cp_last = 1023`. -/
def mipsu_cp_last : Nat := 1023

/-- The tokenizer `mipsu_parse_asm`.

The C function first copies the line into the static 1024-byte buffer
with `strncpy(mipsu_cp_buff, s, mipsu_cp_last)`, which writes at most
`mipsu_cp_last = 1023` bytes (indices 0–1022): a longer line is cut to
its first 1023 characters (modelled by `take`).  The subsequent check
`if (mipsu_cp_buff[mipsu_cp_last]) return MIPSU_RESULT_BUFF_OVERFLOW;`
reads index 1023, which `strncpy` never touches; the only writes the
program ever makes at that index are the zero bytes the token-terminating
stores produce, and static storage starts zeroed, so the byte read is
always `0` and the `BUFF_OVERFLOW` branch is unreachable.  The model
therefore has no overflow case.

The C loop raises `INSTR_SIZE` as soon as a fifth token starts;
result-wise this is the same as collecting the runs and failing when more
than four exist. -/
def mipsu_parse_asm (s : String) : Except mipsu_result (List (List Char)) :=
  let ts := mipsu_tokens (s.data.take mipsu_cp_last)
  if 4 < ts.length then .error .INSTR_SIZE else .ok ts

theorem mipsu_tokens_sep (c : Char) (cs : List Char) (h : mipsu_ignore c = true) :
    mipsu_tokens (c :: cs) = mipsu_tokens cs := by
  rw [mipsu_tokens]
  rw [if_pos h]

theorem mipsu_tokens_seps (seps cs : List Char)
    (h : ∀ c ∈ seps, mipsu_ignore c = true) :
    mipsu_tokens (seps ++ cs) = mipsu_tokens cs := by
  induction seps with
  | nil => rfl
  | cons c seps ih =>
    rw [List.cons_append, mipsu_tokens_sep c _ (h c (by simp))]
    exact ih (fun d hd => h d (by simp [hd]))

theorem mipsu_tokens_token (t rest : List Char) (hne : t ≠ [])
    (ht : ∀ c ∈ t, mipsu_ignore c = false)
    (hrest : rest = [] ∨ ∃ c cs, rest = c :: cs ∧ mipsu_ignore c = true) :
    mipsu_tokens (t ++ rest) = t :: mipsu_tokens rest := by
  obtain ⟨c, t', rfl⟩ := List.exists_cons_of_ne_nil hne
  rw [List.cons_append, mipsu_tokens]
  rw [if_neg (by simp [ht c (by simp)])]
  have htw : List.takeWhile (fun x => !mipsu_ignore x) rest = [] := by
    rcases hrest with rfl | ⟨d, ds, rfl, hd⟩
    · rfl
    · rw [List.takeWhile_cons_of_neg (by simp [hd])]
  have hdw : List.dropWhile (fun x => !mipsu_ignore x) rest = rest := by
    rcases hrest with rfl | ⟨d, ds, rfl, hd⟩
    · rfl
    · rw [List.dropWhile_cons_of_neg (by simp [hd])]
  have ht' : ∀ x ∈ t', (fun x => !mipsu_ignore x) x = true := by
    intro x hx
    simp [ht x (by simp [hx])]
  rw [List.takeWhile_append_of_pos ht', List.dropWhile_append_of_pos ht']
  rw [htw, hdw]
  simp

/-- C5: the tokenizer splits on space, newline, comma and parentheses,
rejects a fifth token with `INSTR_SIZE` ("too many instruction
arguments"), and — contrary to the claim — never rejects an overlong line
with `BUFF_OVERFLOW`: the check is dead and a line longer than the buffer
is silently truncated to its first 1023 characters (here a 1100-character
line tokenizes successfully to one truncated token). -/
theorem mipsu_C5_tokenizer :
    (∀ (c : Char) (cs : List Char), mipsu_ignore c = true →
       mipsu_tokens (c :: cs) = mipsu_tokens cs) ∧
    (∀ (t rest : List Char), t ≠ [] → (∀ c ∈ t, mipsu_ignore c = false) →
       (rest = [] ∨ ∃ c cs, rest = c :: cs ∧ mipsu_ignore c = true) →
       mipsu_tokens (t ++ rest) = t :: mipsu_tokens rest) ∧
    (∀ s : String, 4 < (mipsu_tokens (s.data.take mipsu_cp_last)).length →
       mipsu_parse_asm s = .error .INSTR_SIZE) ∧
    mipsu_parse_asm (String.mk (List.replicate 1100 'a')) =
      .ok [List.replicate 1023 'a'] := by
  refine ⟨mipsu_tokens_sep, mipsu_tokens_token, ?_, ?_⟩
  · intro s h
    unfold mipsu_parse_asm
    rw [if_pos h]
  · unfold mipsu_parse_asm
    have hdata : (String.mk (List.replicate 1100 'a')).data = List.replicate 1100 'a' := rfl
    rw [hdata]
    have htake : (List.replicate 1100 'a').take mipsu_cp_last =
        List.replicate 1023 'a' := by
      rw [List.take_replicate]
      norm_num [mipsu_cp_last]
    rw [htake]
    have hnil : mipsu_tokens ([] : List Char) = [] := by rw [mipsu_tokens]
    have htoks : mipsu_tokens (List.replicate 1023 'a') = [List.replicate 1023 'a'] := by
      have h := mipsu_tokens_token (List.replicate 1023 'a') []
        (by
          intro he
          have hc := congrArg List.length he
          rw [List.length_replicate] at hc
          simp at hc)
        (by
          intro c hc
          rw [List.eq_of_mem_replicate hc]
          rfl)
        (Or.inl rfl)
      rw [List.append_nil] at h
      rw [h, hnil]
    rw [htoks]
    rfl

/-- Witness for C5: a five-token line is rejected with `INSTR_SIZE`. -/
theorem mipsu_C5_witness :
    mipsu_parse_asm "a b c d e" = .error .INSTR_SIZE := by
  apply mipsu_C5_tokenizer.2.2.1
  simp [mipsu_cp_last, mipsu_tokens, mipsu_ignore, List.take, List.takeWhile,
    List.dropWhile]

/-! ### The assembler and the raw field-encode parsers -/

/-- Register-name resolver `mipsu_parse_reg`: an optional leading `$`
(required in strict mode), then a scan of the 32 symbolic names followed
by a scan of the 32 numeric names, first match winning. -/
def mipsu_parse_reg (s : List Char) (c : mipsu_ctx) : Except mipsu_result Nat :=
  let pfx := s.head? == some '$'
  if !pfx && c.strict then .error .BAD_REG
  else
    let s' := if pfx then s.tail else s
    match (List.range 32).find? (fun r => s' == (mipsu_reg_name r).data) with
    | some r => .ok r
    | none =>
      match (List.range 32).find? (fun r => s' == (mipsu_reg_num r).data) with
      | some r => .ok r
      | none => .error .BAD_REG

/-- Mnemonic lookup `mipsu_parse_op`: linear scan of the populated
function-table slots first, then of the populated opcode-table slots;
returns the entry and its table index (which the scan leaves in the `op`
out-parameter). -/
def mipsu_parse_op (s : List Char) : Except mipsu_result (mipsu_op_entry × Nat) :=
  match mipsu_fnv.find? (fun i => s == (mipsu_fn_lut i).mnem.data) with
  | some i => .ok (mipsu_fn_lut i, i)
  | none =>
    match mipsu_opv.find? (fun i => s == (mipsu_op_lut i).mnem.data) with
    | some i => .ok (mipsu_op_lut i, i)
    | none => .error .BAD_OP

/-- Operand parser `mipsu_parse_1r`: exactly one operand token, a
register. -/
def mipsu_parse_1r (a : List (List Char)) (c : mipsu_ctx) :
    Except mipsu_result Nat :=
  match a with
  | [_, t1] => mipsu_parse_reg t1 c
  | _ => .error .BAD_OP_FMT

/-- Operand parser `mipsu_parse_2r`: two register tokens. -/
def mipsu_parse_2r (a : List (List Char)) (c : mipsu_ctx) :
    Except mipsu_result (Nat × Nat) :=
  match a with
  | [_, t1, t2] =>
    match mipsu_parse_reg t1 c with
    | .error r => .error r
    | .ok r1 =>
      match mipsu_parse_reg t2 c with
      | .error r => .error r
      | .ok r2 => .ok (r1, r2)
  | _ => .error .BAD_OP_FMT

/-- Operand parser `mipsu_parse_3r`: three register tokens. -/
def mipsu_parse_3r (a : List (List Char)) (c : mipsu_ctx) :
    Except mipsu_result (Nat × Nat × Nat) :=
  match a with
  | [_, t1, t2, t3] =>
    match mipsu_parse_reg t1 c with
    | .error r => .error r
    | .ok r1 =>
      match mipsu_parse_reg t2 c with
      | .error r => .error r
      | .ok r2 =>
        match mipsu_parse_reg t3 c with
        | .error r => .error r
        | .ok r3 => .ok (r1, r2, r3)
  | _ => .error .BAD_OP_FMT

/-- Operand parser `mipsu_parse_2r_sh`: two registers and a shift
amount. -/
def mipsu_parse_2r_sh (a : List (List Char)) (c : mipsu_ctx) :
    Except mipsu_result (Nat × Nat × Nat) :=
  match a with
  | [_, t1, t2, t3] =>
    match mipsu_parse_reg t1 c with
    | .error r => .error r
    | .ok r1 =>
      match mipsu_parse_reg t2 c with
      | .error r => .error r
      | .ok r2 =>
        match mipsu_parse_sh t3 with
        | .error r => .error r
        | .ok sh => .ok (r1, r2, sh)
  | _ => .error .BAD_OP_FMT

/-- Operand parser `mipsu_parse_1r_imm`: a register and an immediate. -/
def mipsu_parse_1r_imm (a : List (List Char)) (c : mipsu_ctx) :
    Except mipsu_result (Nat × Int) :=
  match a with
  | [_, t1, t2] =>
    match mipsu_parse_reg t1 c with
    | .error r => .error r
    | .ok r1 =>
      match mipsu_parse_imm t2 with
      | .error r => .error r
      | .ok imm => .ok (r1, imm)
  | _ => .error .BAD_OP_FMT

/-- Operand parser `mipsu_parse_2r_imm`: two registers and an
immediate. -/
def mipsu_parse_2r_imm (a : List (List Char)) (c : mipsu_ctx) :
    Except mipsu_result (Nat × Nat × Int) :=
  match a with
  | [_, t1, t2, t3] =>
    match mipsu_parse_reg t1 c with
    | .error r => .error r
    | .ok r1 =>
      match mipsu_parse_reg t2 c with
      | .error r => .error r
      | .ok r2 =>
        match mipsu_parse_imm t3 with
        | .error r => .error r
        | .ok imm => .ok (r1, r2, imm)
  | _ => .error .BAD_OP_FMT

/-- Operand parser `mipsu_parse_r_imm_r`: register, immediate, register
(load/store syntax). -/
def mipsu_parse_r_imm_r (a : List (List Char)) (c : mipsu_ctx) :
    Except mipsu_result (Nat × Int × Nat) :=
  match a with
  | [_, t1, t2, t3] =>
    match mipsu_parse_reg t1 c with
    | .error r => .error r
    | .ok r1 =>
      match mipsu_parse_imm t2 with
      | .error r => .error r
      | .ok imm =>
        match mipsu_parse_reg t3 c with
        | .error r => .error r
        | .ok r2 => .ok (r1, imm, r2)
  | _ => .error .BAD_OP_FMT

/-- The field `mipsu_asm` produces: the struct starts zeroed (`memset`),
`op`/`fn`/`type` are set from the matched table entry (`fn := index`,
`op := 0` for an R-type entry, `op := index` otherwise), and the operand
parsers have filled the given members.  Each table entry's operand format
only writes members that are active for the entry's own form, so the
members of the other forms are dropped with the inactive union
variants. -/
def mipsu_asm_field (t : mipsu_type) (o rs rt rd sh : Nat) (imm : Int)
    (addr : Nat) : mipsu_field :=
  match t with
  | .R => .R 0 rs rt rd sh o
  | .I => .I o rs rt imm
  | .J => .J o addr

/-- The assembler `mipsu_asm`: look the mnemonic up, then dispatch on the
entry's operand format to the matching operand parser.  (For an empty
token list the C code would hand a null pointer to `strcmp`; the callers
exercised by the claims always pass at least one token, and the model
returns `BAD_OP` in that case.) -/
def mipsu_asm (a : List (List Char)) (c : mipsu_ctx) :
    Except mipsu_result mipsu_field :=
  match a with
  | [] => .error .BAD_OP
  | t0 :: _ =>
    match mipsu_parse_op t0 with
    | .error r => .error r
    | .ok (e, o) =>
      match e.fmt with
      | .UNKNOWN => .error .BAD_OP
      | .NONE => .ok (mipsu_asm_field e.type o 0 0 0 0 0 0)
      | .RS =>
        match mipsu_parse_1r a c with
        | .error r => .error r
        | .ok r1 => .ok (mipsu_asm_field e.type o r1 0 0 0 0 0)
      | .RD =>
        match mipsu_parse_1r a c with
        | .error r => .error r
        | .ok r1 => .ok (mipsu_asm_field e.type o 0 0 r1 0 0 0)
      | .RS_RT =>
        match mipsu_parse_2r a c with
        | .error r => .error r
        | .ok (r1, r2) => .ok (mipsu_asm_field e.type o r1 r2 0 0 0 0)
      | .RD_RS_RT =>
        match mipsu_parse_3r a c with
        | .error r => .error r
        | .ok (r1, r2, r3) => .ok (mipsu_asm_field e.type o r2 r3 r1 0 0 0)
      | .RD_RT_RS =>
        match mipsu_parse_3r a c with
        | .error r => .error r
        | .ok (r1, r2, r3) => .ok (mipsu_asm_field e.type o r3 r2 r1 0 0 0)
      | .RD_RT_SH =>
        match mipsu_parse_2r_sh a c with
        | .error r => .error r
        | .ok (r1, r2, sh) => .ok (mipsu_asm_field e.type o 0 r2 r1 sh 0 0)
      | .RS_IMM =>
        match mipsu_parse_1r_imm a c with
        | .error r => .error r
        | .ok (r1, imm) => .ok (mipsu_asm_field e.type o r1 0 0 0 imm 0)
      | .RT_IMM =>
        match mipsu_parse_1r_imm a c with
        | .error r => .error r
        | .ok (r1, imm) => .ok (mipsu_asm_field e.type o 0 r1 0 0 imm 0)
      | .RT_IMM_RS =>
        match mipsu_parse_r_imm_r a c with
        | .error r => .error r
        | .ok (r1, imm, r2) => .ok (mipsu_asm_field e.type o r2 r1 0 0 imm 0)
      | .RT_RS_IMM =>
        match mipsu_parse_2r_imm a c with
        | .error r => .error r
        | .ok (r1, r2, imm) => .ok (mipsu_asm_field e.type o r2 r1 0 0 imm 0)
      | .RS_RT_IMM =>
        match mipsu_parse_2r_imm a c with
        | .error r => .error r
        | .ok (r1, r2, imm) => .ok (mipsu_asm_field e.type o r1 r2 0 0 imm 0)
      | .ADDR =>
        match a with
        | [_, t1] =>
          match mipsu_parse_addr t1 with
          | .error r => .error r
          | .ok addr => .ok (mipsu_asm_field e.type o 0 0 0 0 0 addr)
        | _ => .error .BAD_OP_FMT

/-- Type-specifier parser `mipsu_parse_type`: at most two characters, an
optional `-` prefix (required in strict mode), then one of
`R`/`r`/`I`/`i`/`J`/`j` followed by the end of the token. -/
def mipsu_parse_type (s : List Char) (c : mipsu_ctx) :
    Except mipsu_result mipsu_type :=
  if s.length > 2 then .error .BAD_OP_TYPE
  else
    let pfx := s.head? == some '-'
    if !pfx && c.strict then .error .BAD_OP_TYPE
    else
      match (if pfx then s.tail else s) with
      | [] => .error .BAD_OP_TYPE
      | c0 :: rest =>
        match c0 with
        | 'R' | 'r' => if rest.isEmpty then .ok .R else .error .BAD_OP_TYPE
        | 'I' | 'i' => if rest.isEmpty then .ok .I else .error .BAD_OP_TYPE
        | 'J' | 'j' => if rest.isEmpty then .ok .J else .error .BAD_OP_TYPE
        | _ => .error .BAD_OP_TYPE

/-- Raw sub-field parser `mipsu_parse_field_hlpr`: an unsigned
`n`-bit-wide literal stored into a `uint8_t` member (the error-message
printing of the C helper is dropped; the C code also stores the
uninitialized `w` on failure, but then propagates the error). -/
def mipsu_parse_field_hlpr (s : List Char) (n : Nat) : Except mipsu_result Nat :=
  match mipsu_parse_value s true n with
  | .ok w => .ok (w % 256)
  | .error r => .error r

/-- Raw R-field parser `mipsu_parse_r_field`: `-R <rs> <rt> <rd> <sh> <fn>`
(six argument tokens counting the type specifier). -/
def mipsu_parse_r_field (args : List (List Char)) :
    Except mipsu_result mipsu_field :=
  match args with
  | [_, a1, a2, a3, a4, a5] =>
    match mipsu_parse_field_hlpr a1 5 with
    | .error r => .error r
    | .ok rs =>
      match mipsu_parse_field_hlpr a2 5 with
      | .error r => .error r
      | .ok rt =>
        match mipsu_parse_field_hlpr a3 5 with
        | .error r => .error r
        | .ok rd =>
          match mipsu_parse_field_hlpr a4 5 with
          | .error r => .error r
          | .ok sh =>
            match mipsu_parse_field_hlpr a5 6 with
            | .error r => .error r
            | .ok fn => .ok (.R 0 rs rt rd sh fn)
  | _ => if args.length < 6 then .error .MISSING_ARGS else .error .TOO_MANY_ARGS

/-- Raw I-field parser `mipsu_parse_i_field`: `-I <op> <rs> <rt> <imm>`.
The `op` value is not validated, so `op = 0`, `2` or `3` is accepted
while the tag is set to `I`. -/
def mipsu_parse_i_field (args : List (List Char)) :
    Except mipsu_result mipsu_field :=
  match args with
  | [_, a1, a2, a3, a4] =>
    match mipsu_parse_field_hlpr a1 6 with
    | .error r => .error r
    | .ok op =>
      match mipsu_parse_field_hlpr a2 5 with
      | .error r => .error r
      | .ok rs =>
        match mipsu_parse_field_hlpr a3 5 with
        | .error r => .error r
        | .ok rt =>
          match mipsu_parse_imm a4 with
          | .error r => .error r
          | .ok imm => .ok (.I op rs rt imm)
  | _ => if args.length < 5 then .error .MISSING_ARGS else .error .TOO_MANY_ARGS

/-- Raw J-field parser `mipsu_parse_j_field`: `-J <op> <addr>`.  The C
function sets `out->type = MIPSU_TYPE_I` — not `MIPSU_TYPE_J` — and
stores the parsed address into the `uint8_t` member `out->rs` (truncating
it mod 256); the I-form members `rt` and `imm` are left with whatever the
caller's uninitialized struct held, modelled by the parameters `rt0` and
`imm0`. -/
def mipsu_parse_j_field (rt0 : Nat) (imm0 : Int) (args : List (List Char)) :
    Except mipsu_result mipsu_field :=
  match args with
  | [_, a1, a2] =>
    match mipsu_parse_field_hlpr a1 6 with
    | .error r => .error r
    | .ok op =>
      match mipsu_parse_value a2 false 26 with
      | .error r => .error r
      | .ok w => .ok (.I op (w % 256) rt0 imm0)
  | _ => if args.length < 3 then .error .MISSING_ARGS else .error .TOO_MANY_ARGS

/-- Raw field-encode dispatcher `mipsu_parse_field`: parse the type
specifier, then dispatch to the per-form parser.  `rt0`/`imm0` model the
uninitialized struct members `mipsu_parse_j_field` leaves unassigned. -/
def mipsu_parse_field (rt0 : Nat) (imm0 : Int) (args : List (List Char))
    (c : mipsu_ctx) : Except mipsu_result mipsu_field :=
  match args with
  | [] => .error .MISSING_ARGS
  | t0 :: _ =>
    match mipsu_parse_type t0 c with
    | .error r => .error r
    | .ok .R => mipsu_parse_r_field args
    | .ok .I => mipsu_parse_i_field args
    | .ok .J => mipsu_parse_j_field rt0 imm0 args

/-! ### C3: the tagging invariant -/

theorem mipsu_parse_op_sound (s : List Char) (e : mipsu_op_entry) (i : Nat)
    (h : mipsu_parse_op s = .ok (e, i)) :
    (i ∈ mipsu_fnv ∧ e = mipsu_fn_lut i) ∨ (i ∈ mipsu_opv ∧ e = mipsu_op_lut i) := by
  unfold mipsu_parse_op at h
  rcases h1 : mipsu_fnv.find? (fun i => s == (mipsu_fn_lut i).mnem.data) with _ | j
  · rw [h1] at h
    rcases h2 : mipsu_opv.find? (fun i => s == (mipsu_op_lut i).mnem.data) with _ | j
    · rw [h2] at h
      simp at h
    · rw [h2] at h
      simp only [Except.ok.injEq, Prod.mk.injEq] at h
      obtain ⟨he, hi⟩ := h
      subst hi
      exact Or.inr ⟨List.mem_of_find?_eq_some h2, he.symm⟩
  · rw [h1] at h
    simp only [Except.ok.injEq, Prod.mk.injEq] at h
    obtain ⟨he, hi⟩ := h
    subst hi
    exact Or.inl ⟨List.mem_of_find?_eq_some h1, he.symm⟩

theorem mipsu_fnv_type : ∀ i ∈ mipsu_fnv, (mipsu_fn_lut i).type = .R := by
  decide

theorem mipsu_opv_type : ∀ i ∈ mipsu_opv,
    ((mipsu_op_lut i).type = .J → (i = 2 ∨ i = 3)) ∧
    ((mipsu_op_lut i).type = .I → (i ≠ 0 ∧ i ≠ 2 ∧ i ≠ 3)) := by
  decide

theorem mipsu_asm_field_tag (s : List Char) (e : mipsu_op_entry) (o : Nat)
    (h : mipsu_parse_op s = .ok (e, o)) (rs rt rd sh : Nat) (imm : Int)
    (addr : Nat) :
    mipsu_tag_ok (mipsu_asm_field e.type o rs rt rd sh imm addr) := by
  rcases hty : e.type with _ | _ | _
  · unfold mipsu_asm_field
    rfl
  · unfold mipsu_asm_field
    show o ≠ 0 ∧ o ≠ 2 ∧ o ≠ 3
    rcases mipsu_parse_op_sound s e o h with ⟨hin, rfl⟩ | ⟨hin, rfl⟩
    · rw [mipsu_fnv_type o hin] at hty
      simp at hty
    · exact (mipsu_opv_type o hin).2 hty
  · unfold mipsu_asm_field
    show o = 2 ∨ o = 3
    rcases mipsu_parse_op_sound s e o h with ⟨hin, rfl⟩ | ⟨hin, rfl⟩
    · rw [mipsu_fnv_type o hin] at hty
      simp at hty
    · exact (mipsu_opv_type o hin).1 hty

theorem mipsu_asm_tag (a : List (List Char)) (c : mipsu_ctx) (f : mipsu_field)
    (h : mipsu_asm a c = .ok f) : mipsu_tag_ok f := by
  rcases a with _ | ⟨t0, rest⟩
  · simp [mipsu_asm] at h
  · simp only [mipsu_asm] at h
    rcases hpo : mipsu_parse_op t0 with r | ⟨e, o⟩
    · rw [hpo] at h
      simp at h
    · rw [hpo] at h
      dsimp only [] at h
      have htag := mipsu_asm_field_tag t0 e o hpo
      rcases hf : e.fmt
      all_goals rw [hf] at h
      all_goals dsimp only [] at h
      all_goals repeat' split at h
      all_goals first
        | (injection h with h2; subst h2; apply htag)
        | (exact absurd h (by simp))

theorem mipsu_decode_tag (w : Nat) : mipsu_tag_ok (mipsu_decode w) := by
  unfold mipsu_decode
  by_cases h0 : mipsu_op w = 0
  · rw [if_pos h0]
    exact h0
  · rw [if_neg h0]
    by_cases h23 : mipsu_op w = 2 ∨ mipsu_op w = 3
    · rw [if_pos h23]
      exact h23
    · rw [if_neg h23]
      exact ⟨h0, fun h => h23 (Or.inl h), fun h => h23 (Or.inr h)⟩

/-- C3: `mipsu_decode` and `mipsu_asm` do maintain the tagging invariant
(tag `R` iff `op = 0`, `J` iff `op ∈ {2,3}`, `I` otherwise), but the raw
J-field-encode parser does not: `mipsu_parse_j_field` tags its output
`I` (and stores the address in `rs`), so `encode -J 2 0x0000001` yields
an I-tagged field with `op = 2`, violating the invariant. -/
theorem mipsu_C3_tagging :
    (∀ w : Nat, mipsu_tag_ok (mipsu_decode w)) ∧
    (∀ (a : List (List Char)) (c : mipsu_ctx) (f : mipsu_field),
       mipsu_asm a c = .ok f → mipsu_tag_ok f) ∧
    (∀ (rt0 : Nat) (imm0 : Int),
       mipsu_parse_field rt0 imm0 [['-', 'J'], ['2'], "0x0000001".data]
           mipsu_default_ctx = .ok (.I 2 1 rt0 imm0) ∧
       ¬ mipsu_tag_ok (.I 2 1 rt0 imm0)) := by
  refine ⟨mipsu_decode_tag, mipsu_asm_tag, ?_⟩
  intro rt0 imm0
  constructor
  · rfl
  · intro hcontra
    exact hcontra.2.1 rfl

/-- Witness for C3 at concrete inputs. -/
theorem mipsu_C3_witness :
    mipsu_tag_ok (mipsu_decode 0x08000000) ∧
    mipsu_parse_field 0 0 [['-', 'J'], ['2'], "0x0000001".data]
        mipsu_default_ctx = .ok (.I 2 1 0 0) := by
  constructor
  · exact mipsu_C3_tagging.1 0x08000000
  · exact (mipsu_C3_tagging.2.2 0 0).1

/-! ### The disassembler -/

/-- Left-justified padding to width `n` with spaces, the effect of the
`printf` conversion `%-ns` (a longer string is not cut). -/
def mipsu_pad (s : String) (n : Nat) : String :=
  s ++ String.mk (List.replicate (n - s.length) ' ')

/-- Upper-case hex digit, as printed by the `%X` conversions. -/
def mipsu_hex_digit (n : Nat) : Char :=
  if n < 10 then Char.ofNat (48 + n) else Char.ofNat (55 + n)

/-- Fixed-width big-endian hex digits of `v`, as printed by `%0kX` for a
value needing at most `k` digits (all uses print `uint8`/`uint16`/`uint32`
values at widths 2/4/8, which never need more). -/
def mipsu_hex_chars : Nat → Nat → List Char
  | 0, _ => []
  | k + 1, v => mipsu_hex_chars k (v / 16) ++ [mipsu_hex_digit (v % 16)]

/-- String form of `mipsu_hex_chars`. -/
def mipsu_hex_str (k v : Nat) : String := String.mk (mipsu_hex_chars k v)

/-- Right-justified decimal of a signed value at width 6, the `%6hi`
conversion (an `int16_t` needs at most 6 characters). -/
def mipsu_dec6 (i : Int) : String :=
  let s := toString i
  String.mk (List.replicate (6 - s.length) ' ') ++ s

/-- The 16 bits of an `int16_t` as printed by `%04hX`: the promoted value
converted to `unsigned short`. -/
def mipsu_imm_bits (i : Int) : Nat := (i % 65536).toNat

/-- Reading `f.rs` through the union.  For a J-form field the C read
would alias the address bytes; no table entry makes the disassembler use
`rs` on a J-form field, and the model returns 0 there. -/
def mipsu_frs : mipsu_field → Nat
  | .R _ rs _ _ _ _ => rs
  | .I _ rs _ _ => rs
  | .J _ _ => 0

/-- Reading `f.rt` through the union (conventions as `mipsu_frs`). -/
def mipsu_frt : mipsu_field → Nat
  | .R _ _ rt _ _ _ => rt
  | .I _ _ rt _ => rt
  | .J _ _ => 0

/-- Reading `f.rd` through the union: active only for the R form. -/
def mipsu_frd : mipsu_field → Nat
  | .R _ _ _ rd _ _ => rd
  | _ => 0

/-- Reading `f.sh` through the union: active only for the R form. -/
def mipsu_fsh : mipsu_field → Nat
  | .R _ _ _ _ sh _ => sh
  | _ => 0

/-- Reading `f.imm` through the union: active only for the I form. -/
def mipsu_fimm : mipsu_field → Int
  | .I _ _ _ imm => imm
  | _ => 0

/-- Reading `f.addr` through the union: active only for the J form. -/
def mipsu_faddr : mipsu_field → Nat
  | .J _ addr => addr
  | _ => 0

/-- The table entry `mipsu_disasm` looks up: by `fn` in the function table
for an R-form field, by `op` in the opcode table otherwise. -/
def mipsu_disasm_entry (f : mipsu_field) : mipsu_op_entry :=
  match f with
  | .R _ _ _ _ _ fn => mipsu_fn_lut fn
  | .I op _ _ _ => mipsu_op_lut op
  | .J op _ => mipsu_op_lut op

/-- Template `mipsu_fmt_none`, `"%-8s\n"`. -/
def mipsu_fmt_none_str (m : String) : String := mipsu_pad m 8 ++ "\n"

/-- Template `mipsu_fmt_hex8`, `"%-8s 0x%08X\n"`. -/
def mipsu_fmt_hex8_str (m : String) (v : Nat) : String :=
  mipsu_pad m 8 ++ " 0x" ++ mipsu_hex_str 8 v ++ "\n"

/-- Template `mipsu_fmt_1r`, `"%-8s $%-4s\n"`. -/
def mipsu_fmt_1r_str (m r1 : String) : String :=
  mipsu_pad m 8 ++ " $" ++ mipsu_pad r1 4 ++ "\n"

/-- Template `mipsu_fmt_2r`, `"%-8s $%-4s, $%-4s\n"`. -/
def mipsu_fmt_2r_str (m r1 r2 : String) : String :=
  mipsu_pad m 8 ++ " $" ++ mipsu_pad r1 4 ++ ", $" ++ mipsu_pad r2 4 ++ "\n"

/-- Template `mipsu_fmt_3r`, `"%-8s $%-4s, $%-4s, $%-4s\n"`. -/
def mipsu_fmt_3r_str (m r1 r2 r3 : String) : String :=
  mipsu_pad m 8 ++ " $" ++ mipsu_pad r1 4 ++ ", $" ++ mipsu_pad r2 4 ++ ", $" ++
    mipsu_pad r3 4 ++ "\n"

/-- Template `mipsu_fmt_2r_hex2`, `"%-8s $%-4s, $%-4s, 0x%02hhX\n"`. -/
def mipsu_fmt_2r_hex2_str (m r1 r2 : String) (v : Nat) : String :=
  mipsu_pad m 8 ++ " $" ++ mipsu_pad r1 4 ++ ", $" ++ mipsu_pad r2 4 ++ ", 0x" ++
    mipsu_hex_str 2 v ++ "\n"

/-- Template `mipsu_fmt_1r_dec6`, `"%-8s $%-4s, %6hi\n"`. -/
def mipsu_fmt_1r_dec6_str (m r1 : String) (i : Int) : String :=
  mipsu_pad m 8 ++ " $" ++ mipsu_pad r1 4 ++ ", " ++ mipsu_dec6 i ++ "\n"

/-- Template `mipsu_fmt_2r_dec6`, `"%-8s $%-4s, $%-4s, %6hi\n"`. -/
def mipsu_fmt_2r_dec6_str (m r1 r2 : String) (i : Int) : String :=
  mipsu_pad m 8 ++ " $" ++ mipsu_pad r1 4 ++ ", $" ++ mipsu_pad r2 4 ++ ", " ++
    mipsu_dec6 i ++ "\n"

/-- Template `mipsu_fmt_1r_hex4`, `"%-8s $%-4s, 0x%04hX\n"`. -/
def mipsu_fmt_1r_hex4_str (m r1 : String) (v : Nat) : String :=
  mipsu_pad m 8 ++ " $" ++ mipsu_pad r1 4 ++ ", 0x" ++ mipsu_hex_str 4 v ++ "\n"

/-- Template `mipsu_fmt_2r_hex4`, `"%-8s $%-4s, $%-4s, 0x%04hX\n"`. -/
def mipsu_fmt_2r_hex4_str (m r1 r2 : String) (v : Nat) : String :=
  mipsu_pad m 8 ++ " $" ++ mipsu_pad r1 4 ++ ", $" ++ mipsu_pad r2 4 ++ ", 0x" ++
    mipsu_hex_str 4 v ++ "\n"

/-- Template `mipsu_fmt_r_hex4_r`, `"%-8s $%-4s, 0x%04hX( $%s )\n"`. -/
def mipsu_fmt_r_hex4_r_str (m r1 : String) (v : Nat) (r2 : String) : String :=
  mipsu_pad m 8 ++ " $" ++ mipsu_pad r1 4 ++ ", 0x" ++ mipsu_hex_str 4 v ++
    "( $" ++ r2 ++ " )\n"

/-- The disassembler `mipsu_disasm`: render the field into the fixed
template selected by the looked-up entry's operand-format tag, using
symbolic or numeric register names per the `nreg` flag and decimal or hex
immediates per the `dimm` flag.  A register index `≥ 32` would be an
out-of-bounds `mipsu_reg_lut` read in C; the model renders the empty
name.  An `UNKNOWN` format renders the `.word` dump of the re-encoded
field; no type check against the entry is made and no diagnostic is
emitted by this function. -/
def mipsu_disasm (f : mipsu_field) (c : mipsu_ctx) : String :=
  let rs := if c.nreg then mipsu_reg_num (mipsu_frs f) else mipsu_reg_name (mipsu_frs f)
  let rt := if c.nreg then mipsu_reg_num (mipsu_frt f) else mipsu_reg_name (mipsu_frt f)
  let rd := if c.nreg then mipsu_reg_num (mipsu_frd f) else mipsu_reg_name (mipsu_frd f)
  let e := mipsu_disasm_entry f
  match e.fmt with
  | .UNKNOWN => mipsu_fmt_hex8_str ".word" (mipsu_encode f)
  | .NONE => mipsu_fmt_none_str e.mnem
  | .RS => mipsu_fmt_1r_str e.mnem rs
  | .RD => mipsu_fmt_1r_str e.mnem rd
  | .RS_RT => mipsu_fmt_2r_str e.mnem rs rt
  | .RD_RT_RS => mipsu_fmt_3r_str e.mnem rd rt rs
  | .RD_RT_SH => mipsu_fmt_2r_hex2_str e.mnem rd rt (mipsu_fsh f % 256)
  | .RD_RS_RT => mipsu_fmt_3r_str e.mnem rd rs rt
  | .RS_IMM =>
    if c.dimm then mipsu_fmt_1r_dec6_str e.mnem rs (mipsu_fimm f)
    else mipsu_fmt_1r_hex4_str e.mnem rs (mipsu_imm_bits (mipsu_fimm f))
  | .RT_IMM =>
    if c.dimm then mipsu_fmt_1r_dec6_str e.mnem rt (mipsu_fimm f)
    else mipsu_fmt_1r_hex4_str e.mnem rt (mipsu_imm_bits (mipsu_fimm f))
  | .RT_IMM_RS =>
    mipsu_fmt_r_hex4_r_str e.mnem rt (mipsu_imm_bits (mipsu_fimm f)) rs
  | .RT_RS_IMM =>
    if c.dimm then mipsu_fmt_2r_dec6_str e.mnem rt rs (mipsu_fimm f)
    else mipsu_fmt_2r_hex4_str e.mnem rt rs (mipsu_imm_bits (mipsu_fimm f))
  | .RS_RT_IMM =>
    if c.dimm then mipsu_fmt_2r_dec6_str e.mnem rs rt (mipsu_fimm f)
    else mipsu_fmt_2r_hex4_str e.mnem rs rt (mipsu_imm_bits (mipsu_fimm f))
  | .ADDR => mipsu_fmt_hex8_str e.mnem (mipsu_faddr f)

/-- The one-line assembly pipeline of `mipsu_arg_asm` / `mipsu_args_asm`:
tokenize the line, then assemble the tokens. -/
def mipsu_assemble (s : String) (c : mipsu_ctx) : Except mipsu_result mipsu_field :=
  match mipsu_parse_asm s with
  | .error r => .error r
  | .ok ts => mipsu_asm ts c

/-! ### C8: unknown-entry fallback -/

/-- C8 counterexample: a field whose entry's type disagrees with its form
is not rendered as the raw-word fallback.  The I-form field with `op = 0`
looks up the R-typed entry `mipsu_op_lut[0]` (format `NONE`), and the
disassembler renders that entry's own template — a blank mnemonic line —
instead of the `.word` dump the claim describes. -/
theorem mipsu_C8_counterexample :
    mipsu_disasm (.I 0 0 0 0) mipsu_default_ctx ≠
      mipsu_fmt_hex8_str ".word" (mipsu_encode (.I 0 0 0 0)) := by
  decide

/-- C8 amended: when the table entry is absent (format `UNKNOWN`) the
disassembler does not fail and renders `.word` followed by the re-encoded
word; in particular every 32-bit word whose `op` is the unassigned slot
`0x10` disassembles to the `.word` line carrying the word itself.  When
the entry's type disagrees with the field's form there is no fallback:
the entry's own format is rendered (the I-form field with `op = 0`
renders the blank `NONE` template), and `mipsu_disasm` itself emits no
diagnostic. -/
theorem mipsu_C8_amended :
    (∀ (f : mipsu_field) (c : mipsu_ctx),
       (mipsu_disasm_entry f).fmt = .UNKNOWN →
       mipsu_disasm f c = mipsu_fmt_hex8_str ".word" (mipsu_encode f)) ∧
    (∀ (w : Nat) (c : mipsu_ctx), w < 2 ^ 32 → mipsu_op w = 0x10 →
       mipsu_disasm (mipsu_decode w) c = mipsu_fmt_hex8_str ".word" w) ∧
    mipsu_disasm (.I 0 0 0 0) mipsu_default_ctx = mipsu_fmt_none_str "" := by
  have hunk : ∀ (f : mipsu_field) (c : mipsu_ctx),
      (mipsu_disasm_entry f).fmt = .UNKNOWN →
      mipsu_disasm f c = mipsu_fmt_hex8_str ".word" (mipsu_encode f) := by
    intro f c h
    unfold mipsu_disasm
    dsimp only
    rw [h]
  refine ⟨hunk, ?_, by decide⟩
  intro w c hw hop
  have hdec : mipsu_decode w = .I 16 (mipsu_rs w) (mipsu_rt w) (mipsu_imm w) := by
    unfold mipsu_decode
    rw [hop]
    rfl
  rw [hdec]
  have hent : (mipsu_disasm_entry (.I 16 (mipsu_rs w) (mipsu_rt w) (mipsu_imm w))).fmt
      = .UNKNOWN := rfl
  rw [hunk _ c hent]
  rw [← hdec, mipsu_encode_decode w (by omega)]

/-- Witness for the amended C8 at a concrete word with `op = 0x10`. -/
theorem mipsu_C8_witness :
    mipsu_disasm (mipsu_decode 0x40000000) mipsu_default_ctx =
      mipsu_fmt_hex8_str ".word" 0x40000000 :=
  mipsu_C8_amended.2.1 0x40000000 mipsu_default_ctx (by norm_num) (by decide)

/-! ### C9: the decode example -/

/-- C9 counterexample: the default-option disassembly of `0x00221820` is
not the claimed text `add     $3  , $1  , $2` (with or without a trailing
newline): the default options render symbolic register names, and the
fixed-width templates put different spacing. -/
theorem mipsu_C9_counterexample :
    mipsu_disasm (mipsu_decode 0x00221820) mipsu_default_ctx ≠
        "add     $3  , $1  , $2" ∧
    mipsu_disasm (mipsu_decode 0x00221820) mipsu_default_ctx ≠
        "add     $3  , $1  , $2\n" := by
  constructor
  · decide
  · decide

/-- C9 amended: the word `0x00221820` decodes to the R-form field
`rs = 1, rt = 2, rd = 3, sh = 0, fn = 0x20`, whose function-table entry is
"add"; its disassembly under the default options is exactly
`"add      $v1  , $at  , $v0  \n"` (symbolic register names), and with
the numeric-register option exactly `"add      $3   , $1   , $2   \n"`. -/
theorem mipsu_C9_amended :
    mipsu_decode 0x00221820 = .R 0 1 2 3 0 0x20 ∧
    (mipsu_fn_lut 0x20).mnem = "add" ∧
    mipsu_disasm (mipsu_decode 0x00221820) mipsu_default_ctx =
      "add      $v1  , $at  , $v0  \n" ∧
    mipsu_disasm (mipsu_decode 0x00221820) ⟨false, true, false, false⟩ =
      "add      $3   , $1   , $2   \n" := by
  refine ⟨by decide, rfl, by decide, by decide⟩

/-! ### C4: render/parse consistency -/

theorem mipsu_parse_asm_eq (s : String) (h : s.data.length ≤ 1023) :
    mipsu_parse_asm s =
      (if 4 < (mipsu_tokens s.data).length then .error .INSTR_SIZE
       else .ok (mipsu_tokens s.data)) := by
  unfold mipsu_parse_asm mipsu_cp_last
  rw [List.take_of_length_le h]

theorem mipsu_tokens_nil : mipsu_tokens [] = [] := by
  rw [mipsu_tokens]

theorem mipsu_tokens_only_seps (seps : List Char)
    (hs : ∀ c ∈ seps, mipsu_ignore c = true) : mipsu_tokens seps = [] := by
  have h := mipsu_tokens_seps seps [] hs
  rw [List.append_nil] at h
  rw [h, mipsu_tokens_nil]

theorem mipsu_tokens_chunk (t seps rest : List Char) (ht1 : t ≠ [])
    (ht2 : ∀ c ∈ t, mipsu_ignore c = false) (hs1 : seps ≠ [])
    (hs2 : ∀ c ∈ seps, mipsu_ignore c = true) :
    mipsu_tokens (t ++ (seps ++ rest)) = t :: mipsu_tokens rest := by
  rw [mipsu_tokens_token t (seps ++ rest) ht1 ht2 ?_]
  · rw [mipsu_tokens_seps seps rest hs2]
  · rcases seps with _ | ⟨c, cs⟩
    · exact absurd rfl hs1
    · exact Or.inr ⟨c, cs ++ rest, by simp, hs2 c (by simp)⟩

theorem mipsu_replicate_space_sep (n : Nat) :
    ∀ c ∈ List.replicate n ' ', mipsu_ignore c = true := by
  intro c hc
  rw [List.eq_of_mem_replicate hc]
  rfl

theorem mipsu_reg_name_facts : ∀ r : Nat, r < 32 →
    (mipsu_reg_name r).data ≠ [] ∧
    (∀ c ∈ (mipsu_reg_name r).data, mipsu_ignore c = false) ∧
    (mipsu_reg_name r).length ≤ 4 := by
  decide

theorem mipsu_parse_reg_name : ∀ r : Nat, r < 32 →
    mipsu_parse_reg ('$' :: (mipsu_reg_name r).data) mipsu_default_ctx = .ok r := by
  decide

theorem mipsu_hex_digit_facts : ∀ n : Nat, n < 16 →
    mipsu_is_hexit (mipsu_hex_digit n) = true ∧
    mipsu_ignore (mipsu_hex_digit n) = false ∧
    mipsu_hex_lut (mipsu_hex_digit n) = n := by
  decide

theorem mipsu_hex_chars_length (k v : Nat) : (mipsu_hex_chars k v).length = k := by
  induction k generalizing v with
  | zero => rfl
  | succ k ih =>
    unfold mipsu_hex_chars
    rw [List.length_append, ih]
    simp

theorem mipsu_hex_chars_hexit (k v : Nat) :
    ∀ c ∈ mipsu_hex_chars k v, mipsu_is_hexit c = true := by
  induction k generalizing v with
  | zero => intro c hc; simp [mipsu_hex_chars] at hc
  | succ k ih =>
    intro c hc
    unfold mipsu_hex_chars at hc
    rw [List.mem_append] at hc
    rcases hc with hc | hc
    · exact ih (v / 16) c hc
    · rw [List.mem_singleton] at hc
      subst hc
      exact (mipsu_hex_digit_facts (v % 16) (by omega)).1

theorem mipsu_hex_chars_sepfree (k v : Nat) :
    ∀ c ∈ mipsu_hex_chars k v, mipsu_ignore c = false := by
  induction k generalizing v with
  | zero => intro c hc; simp [mipsu_hex_chars] at hc
  | succ k ih =>
    intro c hc
    unfold mipsu_hex_chars at hc
    rw [List.mem_append] at hc
    rcases hc with hc | hc
    · exact ih (v / 16) c hc
    · rw [List.mem_singleton] at hc
      subst hc
      exact (mipsu_hex_digit_facts (v % 16) (by omega)).2.1

theorem mipsu_get_value_aux (k : Nat) : ∀ (acc v : Nat), v < 16 ^ k →
    acc * 16 ^ k + v < 4294967296 →
    (mipsu_hex_chars k v).foldl
      (fun v c => ((v <<< 4) % 4294967296) ||| mipsu_hex_lut c) acc =
      acc * 16 ^ k + v := by
  induction k with
  | zero =>
    intro acc v hv _
    simp [mipsu_hex_chars]
    omega
  | succ k ih =>
    intro acc v hv hacc
    unfold mipsu_hex_chars
    rw [List.foldl_append]
    have hdiv : v / 16 < 16 ^ k := by
      have : (16 : Nat) ^ (k + 1) = 16 ^ k * 16 := by ring
      omega
    have hacc2 : acc * 16 ^ k + v / 16 < 4294967296 := by
      have h16 : (16 : Nat) ^ (k + 1) = 16 ^ k * 16 := by ring
      have hle : (acc * 16 ^ k + v / 16) * 16 ≤ acc * 16 ^ (k + 1) + v := by
        rw [h16]
        have := Nat.div_mul_le_self v 16
        nlinarith
      nlinarith
    rw [ih acc (v / 16) hdiv hacc2]
    simp only [List.foldl_cons, List.foldl_nil]
    rw [(mipsu_hex_digit_facts (v % 16) (by omega)).2.2]
    rw [Nat.shiftLeft_eq]
    have h1 : (acc * 16 ^ k + v / 16) * 2 ^ 4 < 4294967296 := by
      have h16 : (16 : Nat) ^ (k + 1) = 16 ^ k * 16 := by ring
      have := Nat.div_mul_le_self v 16
      nlinarith
    rw [Nat.mod_eq_of_lt h1]
    have h2 : (acc * 16 ^ k + v / 16) * 2 ^ 4 = (acc * 16 ^ k + v / 16) * 2 ^ 4 := rfl
    rw [mipsu_lor_add (show v % 16 < 2 ^ 4 by omega)]
    have h16 : (16 : Nat) ^ (k + 1) = 16 ^ k * 16 := by ring
    have : (2 : Nat) ^ 4 = 16 := by norm_num
    rw [this]
    rw [h16]
    have := Nat.div_add_mod v 16
    nlinarith

theorem mipsu_get_value_hex (k v : Nat) (hv : v < 16 ^ k)
    (hk : 16 ^ k ≤ 4294967296) :
    mipsu_get_value (mipsu_hex_chars k v) k 4 = v := by
  unfold mipsu_get_value
  rw [List.take_of_length_le (by rw [mipsu_hex_chars_length])]
  have h := mipsu_get_value_aux k 0 v hv (by omega)
  simpa using h

theorem mipsu_parse_imm_roundtrip (imm : Int) (h1 : -32768 ≤ imm)
    (h2 : imm < 32768) :
    mipsu_parse_imm ('0' :: 'x' :: mipsu_hex_chars 4 (mipsu_imm_bits imm)) =
      .ok imm := by
  unfold mipsu_parse_imm
  have hb : mipsu_imm_bits imm < 16 ^ 4 := by
    unfold mipsu_imm_bits
    omega
  rw [mipsu_parse_value_hex 'x' _ false 16 (by decide)]
  rw [show (16 + 3) / 4 = 4 from rfl]
  rw [mipsu_hex_valid_ok _ 4 (mipsu_hex_chars_length 4 _) (mipsu_hex_chars_hexit 4 _)]
  rw [mipsu_get_value_hex 4 _ hb (by norm_num)]
  rw [if_neg (by
    intro hcontra
    have := hcontra.2
    norm_num at this
    omega)]
  unfold Except.map
  dsimp only
  congr 1
  unfold mipsu_imm_bits mipsu_int16_of
  split <;> omega

theorem mipsu_parse_sh_roundtrip (sh : Nat) (h : sh < 32) :
    mipsu_parse_sh ('0' :: 'x' :: mipsu_hex_chars 2 sh) = .ok sh := by
  unfold mipsu_parse_sh
  rw [mipsu_parse_value_hex 'x' _ true 5 (by decide)]
  rw [show (5 + 3) / 4 = 2 from rfl]
  rw [mipsu_hex_valid_ok _ 2 (mipsu_hex_chars_length 2 _) (mipsu_hex_chars_hexit 2 _)]
  rw [mipsu_get_value_hex 2 sh (by omega) (by norm_num)]
  rw [if_neg (by
    intro hcontra
    have := hcontra.2
    norm_num at this
    omega)]
  unfold Except.map
  dsimp only
  congr 1
  omega

theorem mipsu_parse_addr_roundtrip (addr : Nat) (h : addr < 67108864) :
    mipsu_parse_addr ('0' :: 'x' :: mipsu_hex_chars 8 addr) = .ok addr := by
  unfold mipsu_parse_addr mipsu_parse_word
  rw [mipsu_parse_value_hex 'x' _ true 32 (by decide)]
  rw [show (32 + 3) / 4 = 8 from rfl]
  rw [mipsu_hex_valid_ok _ 8 (mipsu_hex_chars_length 8 _) (mipsu_hex_chars_hexit 8 _)]
  rw [mipsu_get_value_hex 8 addr (by omega) (by norm_num)]
  dsimp only
  rw [if_neg (by
    intro hcontra
    exact hcontra.1 rfl)]
  dsimp only
  rw [if_neg (by omega)]

theorem mipsu_pad_data (s : String) (n : Nat) :
    (mipsu_pad s n).data = s.data ++ List.replicate (n - s.length) ' ' := rfl

theorem mipsu_sep_run (n : Nat) (tail : List Char) (h1 : tail ≠ [])
    (h2 : ∀ c ∈ tail, mipsu_ignore c = true) :
    List.replicate n ' ' ++ tail ≠ [] ∧
    (∀ c ∈ List.replicate n ' ' ++ tail, mipsu_ignore c = true) := by
  constructor
  · simp [h1]
  · intro c hc
    rw [List.mem_append] at hc
    rcases hc with hc | hc
    · exact mipsu_replicate_space_sep _ c hc
    · exact h2 c hc

theorem mipsu_reg_token (r : List Char) (hr : ∀ c ∈ r, mipsu_ignore c = false) :
    ('$' :: r) ≠ [] ∧ (∀ c ∈ '$' :: r, mipsu_ignore c = false) := by
  constructor
  · simp
  · intro c hc
    rw [List.mem_cons] at hc
    rcases hc with rfl | hc
    · rfl
    · exact hr c hc

theorem mipsu_hex_token (k v : Nat) :
    ('0' :: 'x' :: mipsu_hex_chars k v) ≠ [] ∧
    (∀ c ∈ '0' :: 'x' :: mipsu_hex_chars k v, mipsu_ignore c = false) := by
  constructor
  · simp
  · intro c hc
    rw [List.mem_cons] at hc
    rcases hc with rfl | hc
    · rfl
    · rw [List.mem_cons] at hc
      rcases hc with rfl | hc
      · rfl
      · exact mipsu_hex_chars_sepfree k v c hc

theorem mipsu_tokens_fmt_1r (m r1 : String) (hm1 : m.data ≠ [])
    (hm2 : ∀ c ∈ m.data, mipsu_ignore c = false)
    (hr1 : ∀ c ∈ r1.data, mipsu_ignore c = false) :
    mipsu_tokens (mipsu_fmt_1r_str m r1).data = [m.data, '$' :: r1.data] := by
  have hdata : (mipsu_fmt_1r_str m r1).data =
      m.data ++ ((List.replicate (8 - m.length) ' ' ++ [' ']) ++
        (('$' :: r1.data) ++ ((List.replicate (4 - r1.length) ' ' ++ ['\n']) ++ []))) := by
    show (mipsu_pad m 8 ++ " $" ++ mipsu_pad r1 4 ++ "\n").data = _
    simp only [String.data_append, mipsu_pad_data]
    simp [List.append_assoc]
  rw [hdata]
  obtain ⟨hs1, hs2⟩ := mipsu_sep_run (8 - m.length) [' '] (by simp) (by
    intro c hc
    rw [List.mem_singleton] at hc
    subst hc
    rfl)
  obtain ⟨ht1, ht2⟩ := mipsu_reg_token r1.data hr1
  obtain ⟨he1, he2⟩ := mipsu_sep_run (4 - r1.length) ['\n'] (by simp) (by
    intro c hc
    rw [List.mem_singleton] at hc
    subst hc
    rfl)
  rw [mipsu_tokens_chunk _ _ _ hm1 hm2 hs1 hs2]
  rw [mipsu_tokens_chunk _ _ _ ht1 ht2 he1 he2]
  rw [mipsu_tokens_nil]

theorem mipsu_sp_sep : ∀ c ∈ [' '], mipsu_ignore c = true := by decide

theorem mipsu_nl_sep : ∀ c ∈ ['\n'], mipsu_ignore c = true := by decide

theorem mipsu_comma_sep : ∀ c ∈ [',', ' '], mipsu_ignore c = true := by decide

theorem mipsu_paren_sep : ∀ c ∈ ['(', ' '], mipsu_ignore c = true := by decide

theorem mipsu_close_sep : ∀ c ∈ [' ', ')', '\n'], mipsu_ignore c = true := by decide

theorem mipsu_tokens_fmt_2r (m r1 r2 : String) (hm1 : m.data ≠ [])
    (hm2 : ∀ c ∈ m.data, mipsu_ignore c = false)
    (hr1 : ∀ c ∈ r1.data, mipsu_ignore c = false)
    (hr2 : ∀ c ∈ r2.data, mipsu_ignore c = false) :
    mipsu_tokens (mipsu_fmt_2r_str m r1 r2).data =
      [m.data, '$' :: r1.data, '$' :: r2.data] := by
  have hdata : (mipsu_fmt_2r_str m r1 r2).data =
      m.data ++ ((List.replicate (8 - m.length) ' ' ++ [' ']) ++
        (('$' :: r1.data) ++ ((List.replicate (4 - r1.length) ' ' ++ [',', ' ']) ++
          (('$' :: r2.data) ++
            ((List.replicate (4 - r2.length) ' ' ++ ['\n']) ++ []))))) := by
    show (mipsu_pad m 8 ++ " $" ++ mipsu_pad r1 4 ++ ", $" ++ mipsu_pad r2 4 ++
      "\n").data = _
    simp only [String.data_append, mipsu_pad_data]
    simp [List.append_assoc]
  rw [hdata]
  obtain ⟨hs1, hs2⟩ := mipsu_sep_run (8 - m.length) [' '] (by simp) mipsu_sp_sep
  obtain ⟨ht1, ht2⟩ := mipsu_reg_token r1.data hr1
  obtain ⟨hc1, hc2⟩ := mipsu_sep_run (4 - r1.length) [',', ' '] (by simp) mipsu_comma_sep
  obtain ⟨hu1, hu2⟩ := mipsu_reg_token r2.data hr2
  obtain ⟨he1, he2⟩ := mipsu_sep_run (4 - r2.length) ['\n'] (by simp) mipsu_nl_sep
  rw [mipsu_tokens_chunk _ _ _ hm1 hm2 hs1 hs2]
  rw [mipsu_tokens_chunk _ _ _ ht1 ht2 hc1 hc2]
  rw [mipsu_tokens_chunk _ _ _ hu1 hu2 he1 he2]
  rw [mipsu_tokens_nil]

theorem mipsu_tokens_fmt_3r (m r1 r2 r3 : String) (hm1 : m.data ≠ [])
    (hm2 : ∀ c ∈ m.data, mipsu_ignore c = false)
    (hr1 : ∀ c ∈ r1.data, mipsu_ignore c = false)
    (hr2 : ∀ c ∈ r2.data, mipsu_ignore c = false)
    (hr3 : ∀ c ∈ r3.data, mipsu_ignore c = false) :
    mipsu_tokens (mipsu_fmt_3r_str m r1 r2 r3).data =
      [m.data, '$' :: r1.data, '$' :: r2.data, '$' :: r3.data] := by
  have hdata : (mipsu_fmt_3r_str m r1 r2 r3).data =
      m.data ++ ((List.replicate (8 - m.length) ' ' ++ [' ']) ++
        (('$' :: r1.data) ++ ((List.replicate (4 - r1.length) ' ' ++ [',', ' ']) ++
          (('$' :: r2.data) ++ ((List.replicate (4 - r2.length) ' ' ++ [',', ' ']) ++
            (('$' :: r3.data) ++
              ((List.replicate (4 - r3.length) ' ' ++ ['\n']) ++ []))))))) := by
    show (mipsu_pad m 8 ++ " $" ++ mipsu_pad r1 4 ++ ", $" ++ mipsu_pad r2 4 ++
      ", $" ++ mipsu_pad r3 4 ++ "\n").data = _
    simp only [String.data_append, mipsu_pad_data]
    simp [List.append_assoc]
  rw [hdata]
  obtain ⟨hs1, hs2⟩ := mipsu_sep_run (8 - m.length) [' '] (by simp) mipsu_sp_sep
  obtain ⟨ht1, ht2⟩ := mipsu_reg_token r1.data hr1
  obtain ⟨hc1, hc2⟩ := mipsu_sep_run (4 - r1.length) [',', ' '] (by simp) mipsu_comma_sep
  obtain ⟨hu1, hu2⟩ := mipsu_reg_token r2.data hr2
  obtain ⟨hd1, hd2⟩ := mipsu_sep_run (4 - r2.length) [',', ' '] (by simp) mipsu_comma_sep
  obtain ⟨hv1, hv2⟩ := mipsu_reg_token r3.data hr3
  obtain ⟨he1, he2⟩ := mipsu_sep_run (4 - r3.length) ['\n'] (by simp) mipsu_nl_sep
  rw [mipsu_tokens_chunk _ _ _ hm1 hm2 hs1 hs2]
  rw [mipsu_tokens_chunk _ _ _ ht1 ht2 hc1 hc2]
  rw [mipsu_tokens_chunk _ _ _ hu1 hu2 hd1 hd2]
  rw [mipsu_tokens_chunk _ _ _ hv1 hv2 he1 he2]
  rw [mipsu_tokens_nil]

theorem mipsu_tokens_fmt_2r_hex2 (m r1 r2 : String) (v : Nat) (hm1 : m.data ≠ [])
    (hm2 : ∀ c ∈ m.data, mipsu_ignore c = false)
    (hr1 : ∀ c ∈ r1.data, mipsu_ignore c = false)
    (hr2 : ∀ c ∈ r2.data, mipsu_ignore c = false) :
    mipsu_tokens (mipsu_fmt_2r_hex2_str m r1 r2 v).data =
      [m.data, '$' :: r1.data, '$' :: r2.data, '0' :: 'x' :: mipsu_hex_chars 2 v] := by
  have hdata : (mipsu_fmt_2r_hex2_str m r1 r2 v).data =
      m.data ++ ((List.replicate (8 - m.length) ' ' ++ [' ']) ++
        (('$' :: r1.data) ++ ((List.replicate (4 - r1.length) ' ' ++ [',', ' ']) ++
          (('$' :: r2.data) ++ ((List.replicate (4 - r2.length) ' ' ++ [',', ' ']) ++
            (('0' :: 'x' :: mipsu_hex_chars 2 v) ++ (['\n'] ++ []))))))) := by
    show (mipsu_pad m 8 ++ " $" ++ mipsu_pad r1 4 ++ ", $" ++ mipsu_pad r2 4 ++
      ", 0x" ++ mipsu_hex_str 2 v ++ "\n").data = _
    simp only [String.data_append, mipsu_pad_data]
    show _ ++ _ ++ _ ++ _ ++ _ ++ _ ++ mipsu_hex_chars 2 v ++ _ = _
    simp [List.append_assoc]
  rw [hdata]
  obtain ⟨hs1, hs2⟩ := mipsu_sep_run (8 - m.length) [' '] (by simp) mipsu_sp_sep
  obtain ⟨ht1, ht2⟩ := mipsu_reg_token r1.data hr1
  obtain ⟨hc1, hc2⟩ := mipsu_sep_run (4 - r1.length) [',', ' '] (by simp) mipsu_comma_sep
  obtain ⟨hu1, hu2⟩ := mipsu_reg_token r2.data hr2
  obtain ⟨hd1, hd2⟩ := mipsu_sep_run (4 - r2.length) [',', ' '] (by simp) mipsu_comma_sep
  obtain ⟨hh1, hh2⟩ := mipsu_hex_token 2 v
  rw [mipsu_tokens_chunk _ _ _ hm1 hm2 hs1 hs2]
  rw [mipsu_tokens_chunk _ _ _ ht1 ht2 hc1 hc2]
  rw [mipsu_tokens_chunk _ _ _ hu1 hu2 hd1 hd2]
  rw [mipsu_tokens_chunk _ _ _ hh1 hh2 (by simp) mipsu_nl_sep]
  rw [mipsu_tokens_nil]

theorem mipsu_tokens_fmt_1r_hex4 (m r1 : String) (v : Nat) (hm1 : m.data ≠ [])
    (hm2 : ∀ c ∈ m.data, mipsu_ignore c = false)
    (hr1 : ∀ c ∈ r1.data, mipsu_ignore c = false) :
    mipsu_tokens (mipsu_fmt_1r_hex4_str m r1 v).data =
      [m.data, '$' :: r1.data, '0' :: 'x' :: mipsu_hex_chars 4 v] := by
  have hdata : (mipsu_fmt_1r_hex4_str m r1 v).data =
      m.data ++ ((List.replicate (8 - m.length) ' ' ++ [' ']) ++
        (('$' :: r1.data) ++ ((List.replicate (4 - r1.length) ' ' ++ [',', ' ']) ++
          (('0' :: 'x' :: mipsu_hex_chars 4 v) ++ (['\n'] ++ []))))) := by
    show (mipsu_pad m 8 ++ " $" ++ mipsu_pad r1 4 ++ ", 0x" ++ mipsu_hex_str 4 v ++
      "\n").data = _
    simp only [String.data_append, mipsu_pad_data]
    show _ ++ _ ++ _ ++ _ ++ mipsu_hex_chars 4 v ++ _ = _
    simp [List.append_assoc]
  rw [hdata]
  obtain ⟨hs1, hs2⟩ := mipsu_sep_run (8 - m.length) [' '] (by simp) mipsu_sp_sep
  obtain ⟨ht1, ht2⟩ := mipsu_reg_token r1.data hr1
  obtain ⟨hc1, hc2⟩ := mipsu_sep_run (4 - r1.length) [',', ' '] (by simp) mipsu_comma_sep
  obtain ⟨hh1, hh2⟩ := mipsu_hex_token 4 v
  rw [mipsu_tokens_chunk _ _ _ hm1 hm2 hs1 hs2]
  rw [mipsu_tokens_chunk _ _ _ ht1 ht2 hc1 hc2]
  rw [mipsu_tokens_chunk _ _ _ hh1 hh2 (by simp) mipsu_nl_sep]
  rw [mipsu_tokens_nil]

theorem mipsu_tokens_fmt_2r_hex4 (m r1 r2 : String) (v : Nat) (hm1 : m.data ≠ [])
    (hm2 : ∀ c ∈ m.data, mipsu_ignore c = false)
    (hr1 : ∀ c ∈ r1.data, mipsu_ignore c = false)
    (hr2 : ∀ c ∈ r2.data, mipsu_ignore c = false) :
    mipsu_tokens (mipsu_fmt_2r_hex4_str m r1 r2 v).data =
      [m.data, '$' :: r1.data, '$' :: r2.data, '0' :: 'x' :: mipsu_hex_chars 4 v] := by
  have hdata : (mipsu_fmt_2r_hex4_str m r1 r2 v).data =
      m.data ++ ((List.replicate (8 - m.length) ' ' ++ [' ']) ++
        (('$' :: r1.data) ++ ((List.replicate (4 - r1.length) ' ' ++ [',', ' ']) ++
          (('$' :: r2.data) ++ ((List.replicate (4 - r2.length) ' ' ++ [',', ' ']) ++
            (('0' :: 'x' :: mipsu_hex_chars 4 v) ++ (['\n'] ++ []))))))) := by
    show (mipsu_pad m 8 ++ " $" ++ mipsu_pad r1 4 ++ ", $" ++ mipsu_pad r2 4 ++
      ", 0x" ++ mipsu_hex_str 4 v ++ "\n").data = _
    simp only [String.data_append, mipsu_pad_data]
    show _ ++ _ ++ _ ++ _ ++ _ ++ _ ++ mipsu_hex_chars 4 v ++ _ = _
    simp [List.append_assoc]
  rw [hdata]
  obtain ⟨hs1, hs2⟩ := mipsu_sep_run (8 - m.length) [' '] (by simp) mipsu_sp_sep
  obtain ⟨ht1, ht2⟩ := mipsu_reg_token r1.data hr1
  obtain ⟨hc1, hc2⟩ := mipsu_sep_run (4 - r1.length) [',', ' '] (by simp) mipsu_comma_sep
  obtain ⟨hu1, hu2⟩ := mipsu_reg_token r2.data hr2
  obtain ⟨hd1, hd2⟩ := mipsu_sep_run (4 - r2.length) [',', ' '] (by simp) mipsu_comma_sep
  obtain ⟨hh1, hh2⟩ := mipsu_hex_token 4 v
  rw [mipsu_tokens_chunk _ _ _ hm1 hm2 hs1 hs2]
  rw [mipsu_tokens_chunk _ _ _ ht1 ht2 hc1 hc2]
  rw [mipsu_tokens_chunk _ _ _ hu1 hu2 hd1 hd2]
  rw [mipsu_tokens_chunk _ _ _ hh1 hh2 (by simp) mipsu_nl_sep]
  rw [mipsu_tokens_nil]

theorem mipsu_tokens_fmt_r_hex4_r (m r1 : String) (v : Nat) (r2 : String)
    (hm1 : m.data ≠ []) (hm2 : ∀ c ∈ m.data, mipsu_ignore c = false)
    (hr1 : ∀ c ∈ r1.data, mipsu_ignore c = false)
    (hr2 : ∀ c ∈ r2.data, mipsu_ignore c = false) :
    mipsu_tokens (mipsu_fmt_r_hex4_r_str m r1 v r2).data =
      [m.data, '$' :: r1.data, '0' :: 'x' :: mipsu_hex_chars 4 v, '$' :: r2.data] := by
  have hdata : (mipsu_fmt_r_hex4_r_str m r1 v r2).data =
      m.data ++ ((List.replicate (8 - m.length) ' ' ++ [' ']) ++
        (('$' :: r1.data) ++ ((List.replicate (4 - r1.length) ' ' ++ [',', ' ']) ++
          (('0' :: 'x' :: mipsu_hex_chars 4 v) ++ (['(', ' '] ++
            (('$' :: r2.data) ++ ([' ', ')', '\n'] ++ []))))))) := by
    show (mipsu_pad m 8 ++ " $" ++ mipsu_pad r1 4 ++ ", 0x" ++ mipsu_hex_str 4 v ++
      "( $" ++ r2 ++ " )\n").data = _
    simp only [String.data_append, mipsu_pad_data]
    show _ ++ _ ++ _ ++ _ ++ mipsu_hex_chars 4 v ++ _ ++ _ ++ _ = _
    simp [List.append_assoc]
  rw [hdata]
  obtain ⟨hs1, hs2⟩ := mipsu_sep_run (8 - m.length) [' '] (by simp) mipsu_sp_sep
  obtain ⟨ht1, ht2⟩ := mipsu_reg_token r1.data hr1
  obtain ⟨hc1, hc2⟩ := mipsu_sep_run (4 - r1.length) [',', ' '] (by simp) mipsu_comma_sep
  obtain ⟨hh1, hh2⟩ := mipsu_hex_token 4 v
  obtain ⟨hu1, hu2⟩ := mipsu_reg_token r2.data hr2
  rw [mipsu_tokens_chunk _ _ _ hm1 hm2 hs1 hs2]
  rw [mipsu_tokens_chunk _ _ _ ht1 ht2 hc1 hc2]
  rw [mipsu_tokens_chunk _ _ _ hh1 hh2 (by simp) mipsu_paren_sep]
  rw [mipsu_tokens_chunk _ _ _ hu1 hu2 (by simp) mipsu_close_sep]
  rw [mipsu_tokens_nil]

theorem mipsu_tokens_fmt_hex8 (m : String) (v : Nat) (hm1 : m.data ≠ [])
    (hm2 : ∀ c ∈ m.data, mipsu_ignore c = false) :
    mipsu_tokens (mipsu_fmt_hex8_str m v).data =
      [m.data, '0' :: 'x' :: mipsu_hex_chars 8 v] := by
  have hdata : (mipsu_fmt_hex8_str m v).data =
      m.data ++ ((List.replicate (8 - m.length) ' ' ++ [' ']) ++
        (('0' :: 'x' :: mipsu_hex_chars 8 v) ++ (['\n'] ++ []))) := by
    show (mipsu_pad m 8 ++ " 0x" ++ mipsu_hex_str 8 v ++ "\n").data = _
    simp only [String.data_append, mipsu_pad_data]
    show _ ++ _ ++ mipsu_hex_chars 8 v ++ _ = _
    simp [List.append_assoc]
  rw [hdata]
  obtain ⟨hs1, hs2⟩ := mipsu_sep_run (8 - m.length) [' '] (by simp) mipsu_sp_sep
  obtain ⟨hh1, hh2⟩ := mipsu_hex_token 8 v
  rw [mipsu_tokens_chunk _ _ _ hm1 hm2 hs1 hs2]
  rw [mipsu_tokens_chunk _ _ _ hh1 hh2 (by simp) mipsu_nl_sep]
  rw [mipsu_tokens_nil]

theorem mipsu_length_data (s : String) : s.data.length = s.length := rfl

theorem mipsu_data_mk (l : List Char) : (String.mk l).data = l := rfl

theorem mipsu_c4_rd_rs_rt (fn : Nat) (m : String) (rs rt rd : Nat)
    (hlut : mipsu_fn_lut fn = ⟨m, .RD_RS_RT, .R⟩)
    (hop : mipsu_parse_op m.data = .ok (⟨m, .RD_RS_RT, .R⟩, fn))
    (hm1 : m.data ≠ []) (hm2 : ∀ c ∈ m.data, mipsu_ignore c = false)
    (hm3 : m.length ≤ 8)
    (hrs : rs < 32) (hrt : rt < 32) (hrd : rd < 32) :
    mipsu_assemble (mipsu_disasm (.R 0 rs rt rd 0 fn) mipsu_default_ctx)
      mipsu_default_ctx = .ok (.R 0 rs rt rd 0 fn) := by
  obtain ⟨hd1, hd2, hd3⟩ := mipsu_reg_name_facts rd hrd
  obtain ⟨hs1, hs2, hs3⟩ := mipsu_reg_name_facts rs hrs
  obtain ⟨ht1, ht2, ht3⟩ := mipsu_reg_name_facts rt hrt
  have hent : mipsu_disasm_entry (.R 0 rs rt rd 0 fn) = ⟨m, .RD_RS_RT, .R⟩ := by
    show mipsu_fn_lut fn = _
    exact hlut
  have hdis : mipsu_disasm (.R 0 rs rt rd 0 fn) mipsu_default_ctx =
      mipsu_fmt_3r_str m (mipsu_reg_name rd) (mipsu_reg_name rs)
        (mipsu_reg_name rt) := by
    unfold mipsu_disasm
    dsimp only
    rw [hent]
    simp [mipsu_default_ctx, mipsu_frs, mipsu_frt, mipsu_frd]
  rw [hdis]
  have hlen : (mipsu_fmt_3r_str m (mipsu_reg_name rd) (mipsu_reg_name rs)
      (mipsu_reg_name rt)).data.length ≤ 1023 := by
    unfold mipsu_fmt_3r_str mipsu_pad
    simp only [String.data_append, List.length_append, List.length_replicate,
      List.length_cons, List.length_nil, mipsu_data_mk, mipsu_length_data]
    omega
  unfold mipsu_assemble
  rw [mipsu_parse_asm_eq _ hlen]
  rw [mipsu_tokens_fmt_3r m _ _ _ hm1 hm2 hd2 hs2 ht2]
  rw [if_neg (by simp)]
  show mipsu_asm [m.data, '$' :: (mipsu_reg_name rd).data,
    '$' :: (mipsu_reg_name rs).data, '$' :: (mipsu_reg_name rt).data]
    mipsu_default_ctx = _
  unfold mipsu_asm
  dsimp only
  rw [hop]
  dsimp only
  unfold mipsu_parse_3r
  dsimp only
  rw [mipsu_parse_reg_name rd hrd, mipsu_parse_reg_name rs hrs,
    mipsu_parse_reg_name rt hrt]
  rfl

theorem mipsu_c4_rd_rt_rs (fn : Nat) (m : String) (rs rt rd : Nat)
    (hlut : mipsu_fn_lut fn = ⟨m, .RD_RT_RS, .R⟩)
    (hop : mipsu_parse_op m.data = .ok (⟨m, .RD_RT_RS, .R⟩, fn))
    (hm1 : m.data ≠ []) (hm2 : ∀ c ∈ m.data, mipsu_ignore c = false)
    (hm3 : m.length ≤ 8)
    (hrs : rs < 32) (hrt : rt < 32) (hrd : rd < 32) :
    mipsu_assemble (mipsu_disasm (.R 0 rs rt rd 0 fn) mipsu_default_ctx)
      mipsu_default_ctx = .ok (.R 0 rs rt rd 0 fn) := by
  obtain ⟨hd1, hd2, hd3⟩ := mipsu_reg_name_facts rd hrd
  obtain ⟨hs1, hs2, hs3⟩ := mipsu_reg_name_facts rs hrs
  obtain ⟨ht1, ht2, ht3⟩ := mipsu_reg_name_facts rt hrt
  have hent : mipsu_disasm_entry (.R 0 rs rt rd 0 fn) = ⟨m, .RD_RT_RS, .R⟩ := by
    show mipsu_fn_lut fn = _
    exact hlut
  have hdis : mipsu_disasm (.R 0 rs rt rd 0 fn) mipsu_default_ctx =
      mipsu_fmt_3r_str m (mipsu_reg_name rd) (mipsu_reg_name rt)
        (mipsu_reg_name rs) := by
    unfold mipsu_disasm
    dsimp only
    rw [hent]
    simp [mipsu_default_ctx, mipsu_frs, mipsu_frt, mipsu_frd]
  rw [hdis]
  have hlen : (mipsu_fmt_3r_str m (mipsu_reg_name rd) (mipsu_reg_name rt)
      (mipsu_reg_name rs)).data.length ≤ 1023 := by
    unfold mipsu_fmt_3r_str mipsu_pad
    simp only [String.data_append, List.length_append, List.length_replicate,
      List.length_cons, List.length_nil, mipsu_data_mk, mipsu_length_data]
    omega
  unfold mipsu_assemble
  rw [mipsu_parse_asm_eq _ hlen]
  rw [mipsu_tokens_fmt_3r m _ _ _ hm1 hm2 hd2 ht2 hs2]
  rw [if_neg (by simp)]
  show mipsu_asm [m.data, '$' :: (mipsu_reg_name rd).data,
    '$' :: (mipsu_reg_name rt).data, '$' :: (mipsu_reg_name rs).data]
    mipsu_default_ctx = _
  unfold mipsu_asm
  dsimp only
  rw [hop]
  dsimp only
  unfold mipsu_parse_3r
  dsimp only
  rw [mipsu_parse_reg_name rd hrd, mipsu_parse_reg_name rt hrt,
    mipsu_parse_reg_name rs hrs]
  rfl

theorem mipsu_c4_rd_rt_sh (fn : Nat) (m : String) (rt rd sh : Nat)
    (hlut : mipsu_fn_lut fn = ⟨m, .RD_RT_SH, .R⟩)
    (hop : mipsu_parse_op m.data = .ok (⟨m, .RD_RT_SH, .R⟩, fn))
    (hm1 : m.data ≠ []) (hm2 : ∀ c ∈ m.data, mipsu_ignore c = false)
    (hm3 : m.length ≤ 8)
    (hrt : rt < 32) (hrd : rd < 32) (hsh : sh < 32) :
    mipsu_assemble (mipsu_disasm (.R 0 0 rt rd sh fn) mipsu_default_ctx)
      mipsu_default_ctx = .ok (.R 0 0 rt rd sh fn) := by
  obtain ⟨hd1, hd2, hd3⟩ := mipsu_reg_name_facts rd hrd
  obtain ⟨ht1, ht2, ht3⟩ := mipsu_reg_name_facts rt hrt
  have hent : mipsu_disasm_entry (.R 0 0 rt rd sh fn) = ⟨m, .RD_RT_SH, .R⟩ := by
    show mipsu_fn_lut fn = _
    exact hlut
  have hdis : mipsu_disasm (.R 0 0 rt rd sh fn) mipsu_default_ctx =
      mipsu_fmt_2r_hex2_str m (mipsu_reg_name rd) (mipsu_reg_name rt) sh := by
    unfold mipsu_disasm
    dsimp only
    rw [hent]
    simp [mipsu_default_ctx, mipsu_frt, mipsu_frd, mipsu_fsh]
    rw [Nat.mod_eq_of_lt (by omega)]
  rw [hdis]
  have hlen : (mipsu_fmt_2r_hex2_str m (mipsu_reg_name rd) (mipsu_reg_name rt)
      sh).data.length ≤ 1023 := by
    unfold mipsu_fmt_2r_hex2_str mipsu_pad mipsu_hex_str
    simp only [String.data_append, List.length_append, List.length_replicate,
      List.length_cons, List.length_nil, mipsu_data_mk, mipsu_length_data,
      mipsu_hex_chars_length]
    omega
  unfold mipsu_assemble
  rw [mipsu_parse_asm_eq _ hlen]
  rw [mipsu_tokens_fmt_2r_hex2 m _ _ sh hm1 hm2 hd2 ht2]
  rw [if_neg (by simp)]
  show mipsu_asm [m.data, '$' :: (mipsu_reg_name rd).data,
    '$' :: (mipsu_reg_name rt).data, '0' :: 'x' :: mipsu_hex_chars 2 sh]
    mipsu_default_ctx = _
  unfold mipsu_asm
  dsimp only
  rw [hop]
  dsimp only
  unfold mipsu_parse_2r_sh
  dsimp only
  rw [mipsu_parse_reg_name rd hrd, mipsu_parse_reg_name rt hrt,
    mipsu_parse_sh_roundtrip sh hsh]
  rfl

theorem mipsu_c4_rs (fn : Nat) (m : String) (rs : Nat)
    (hlut : mipsu_fn_lut fn = ⟨m, .RS, .R⟩)
    (hop : mipsu_parse_op m.data = .ok (⟨m, .RS, .R⟩, fn))
    (hm1 : m.data ≠ []) (hm2 : ∀ c ∈ m.data, mipsu_ignore c = false)
    (hm3 : m.length ≤ 8) (hrs : rs < 32) :
    mipsu_assemble (mipsu_disasm (.R 0 rs 0 0 0 fn) mipsu_default_ctx)
      mipsu_default_ctx = .ok (.R 0 rs 0 0 0 fn) := by
  obtain ⟨hs1, hs2, hs3⟩ := mipsu_reg_name_facts rs hrs
  have hent : mipsu_disasm_entry (.R 0 rs 0 0 0 fn) = ⟨m, .RS, .R⟩ := by
    show mipsu_fn_lut fn = _
    exact hlut
  have hdis : mipsu_disasm (.R 0 rs 0 0 0 fn) mipsu_default_ctx =
      mipsu_fmt_1r_str m (mipsu_reg_name rs) := by
    unfold mipsu_disasm
    dsimp only
    rw [hent]
    simp [mipsu_default_ctx, mipsu_frs]
  rw [hdis]
  have hlen : (mipsu_fmt_1r_str m (mipsu_reg_name rs)).data.length ≤ 1023 := by
    unfold mipsu_fmt_1r_str mipsu_pad
    simp only [String.data_append, List.length_append, List.length_replicate,
      List.length_cons, List.length_nil, mipsu_data_mk, mipsu_length_data]
    omega
  unfold mipsu_assemble
  rw [mipsu_parse_asm_eq _ hlen]
  rw [mipsu_tokens_fmt_1r m _ hm1 hm2 hs2]
  rw [if_neg (by simp)]
  show mipsu_asm [m.data, '$' :: (mipsu_reg_name rs).data] mipsu_default_ctx = _
  unfold mipsu_asm
  dsimp only
  rw [hop]
  dsimp only
  unfold mipsu_parse_1r
  dsimp only
  rw [mipsu_parse_reg_name rs hrs]
  rfl

theorem mipsu_c4_rd (fn : Nat) (m : String) (rd : Nat)
    (hlut : mipsu_fn_lut fn = ⟨m, .RD, .R⟩)
    (hop : mipsu_parse_op m.data = .ok (⟨m, .RD, .R⟩, fn))
    (hm1 : m.data ≠ []) (hm2 : ∀ c ∈ m.data, mipsu_ignore c = false)
    (hm3 : m.length ≤ 8) (hrd : rd < 32) :
    mipsu_assemble (mipsu_disasm (.R 0 0 0 rd 0 fn) mipsu_default_ctx)
      mipsu_default_ctx = .ok (.R 0 0 0 rd 0 fn) := by
  obtain ⟨hd1, hd2, hd3⟩ := mipsu_reg_name_facts rd hrd
  have hent : mipsu_disasm_entry (.R 0 0 0 rd 0 fn) = ⟨m, .RD, .R⟩ := by
    show mipsu_fn_lut fn = _
    exact hlut
  have hdis : mipsu_disasm (.R 0 0 0 rd 0 fn) mipsu_default_ctx =
      mipsu_fmt_1r_str m (mipsu_reg_name rd) := by
    unfold mipsu_disasm
    dsimp only
    rw [hent]
    simp [mipsu_default_ctx, mipsu_frd]
  rw [hdis]
  have hlen : (mipsu_fmt_1r_str m (mipsu_reg_name rd)).data.length ≤ 1023 := by
    unfold mipsu_fmt_1r_str mipsu_pad
    simp only [String.data_append, List.length_append, List.length_replicate,
      List.length_cons, List.length_nil, mipsu_data_mk, mipsu_length_data]
    omega
  unfold mipsu_assemble
  rw [mipsu_parse_asm_eq _ hlen]
  rw [mipsu_tokens_fmt_1r m _ hm1 hm2 hd2]
  rw [if_neg (by simp)]
  show mipsu_asm [m.data, '$' :: (mipsu_reg_name rd).data] mipsu_default_ctx = _
  unfold mipsu_asm
  dsimp only
  rw [hop]
  dsimp only
  unfold mipsu_parse_1r
  dsimp only
  rw [mipsu_parse_reg_name rd hrd]
  rfl

theorem mipsu_c4_rs_rt (fn : Nat) (m : String) (rs rt : Nat)
    (hlut : mipsu_fn_lut fn = ⟨m, .RS_RT, .R⟩)
    (hop : mipsu_parse_op m.data = .ok (⟨m, .RS_RT, .R⟩, fn))
    (hm1 : m.data ≠ []) (hm2 : ∀ c ∈ m.data, mipsu_ignore c = false)
    (hm3 : m.length ≤ 8) (hrs : rs < 32) (hrt : rt < 32) :
    mipsu_assemble (mipsu_disasm (.R 0 rs rt 0 0 fn) mipsu_default_ctx)
      mipsu_default_ctx = .ok (.R 0 rs rt 0 0 fn) := by
  obtain ⟨hs1, hs2, hs3⟩ := mipsu_reg_name_facts rs hrs
  obtain ⟨ht1, ht2, ht3⟩ := mipsu_reg_name_facts rt hrt
  have hent : mipsu_disasm_entry (.R 0 rs rt 0 0 fn) = ⟨m, .RS_RT, .R⟩ := by
    show mipsu_fn_lut fn = _
    exact hlut
  have hdis : mipsu_disasm (.R 0 rs rt 0 0 fn) mipsu_default_ctx =
      mipsu_fmt_2r_str m (mipsu_reg_name rs) (mipsu_reg_name rt) := by
    unfold mipsu_disasm
    dsimp only
    rw [hent]
    simp [mipsu_default_ctx, mipsu_frs, mipsu_frt]
  rw [hdis]
  have hlen : (mipsu_fmt_2r_str m (mipsu_reg_name rs)
      (mipsu_reg_name rt)).data.length ≤ 1023 := by
    unfold mipsu_fmt_2r_str mipsu_pad
    simp only [String.data_append, List.length_append, List.length_replicate,
      List.length_cons, List.length_nil, mipsu_data_mk, mipsu_length_data]
    omega
  unfold mipsu_assemble
  rw [mipsu_parse_asm_eq _ hlen]
  rw [mipsu_tokens_fmt_2r m _ _ hm1 hm2 hs2 ht2]
  rw [if_neg (by simp)]
  show mipsu_asm [m.data, '$' :: (mipsu_reg_name rs).data,
    '$' :: (mipsu_reg_name rt).data] mipsu_default_ctx = _
  unfold mipsu_asm
  dsimp only
  rw [hop]
  dsimp only
  unfold mipsu_parse_2r
  dsimp only
  rw [mipsu_parse_reg_name rs hrs, mipsu_parse_reg_name rt hrt]
  rfl

theorem mipsu_c4_rt_rs_imm (op : Nat) (m : String) (rs rt : Nat) (imm : Int)
    (hlut : mipsu_op_lut op = ⟨m, .RT_RS_IMM, .I⟩)
    (hop : mipsu_parse_op m.data = .ok (⟨m, .RT_RS_IMM, .I⟩, op))
    (hm1 : m.data ≠ []) (hm2 : ∀ c ∈ m.data, mipsu_ignore c = false)
    (hm3 : m.length ≤ 8) (hrs : rs < 32) (hrt : rt < 32)
    (hi1 : -32768 ≤ imm) (hi2 : imm < 32768) :
    mipsu_assemble (mipsu_disasm (.I op rs rt imm) mipsu_default_ctx)
      mipsu_default_ctx = .ok (.I op rs rt imm) := by
  obtain ⟨hs1, hs2, hs3⟩ := mipsu_reg_name_facts rs hrs
  obtain ⟨ht1, ht2, ht3⟩ := mipsu_reg_name_facts rt hrt
  have hent : mipsu_disasm_entry (.I op rs rt imm) = ⟨m, .RT_RS_IMM, .I⟩ := by
    show mipsu_op_lut op = _
    exact hlut
  have hdis : mipsu_disasm (.I op rs rt imm) mipsu_default_ctx =
      mipsu_fmt_2r_hex4_str m (mipsu_reg_name rt) (mipsu_reg_name rs)
        (mipsu_imm_bits imm) := by
    unfold mipsu_disasm
    dsimp only
    rw [hent]
    simp [mipsu_default_ctx, mipsu_frs, mipsu_frt, mipsu_fimm]
  rw [hdis]
  have hlen : (mipsu_fmt_2r_hex4_str m (mipsu_reg_name rt) (mipsu_reg_name rs)
      (mipsu_imm_bits imm)).data.length ≤ 1023 := by
    unfold mipsu_fmt_2r_hex4_str mipsu_pad mipsu_hex_str
    simp only [String.data_append, List.length_append, List.length_replicate,
      List.length_cons, List.length_nil, mipsu_data_mk, mipsu_length_data,
      mipsu_hex_chars_length]
    omega
  unfold mipsu_assemble
  rw [mipsu_parse_asm_eq _ hlen]
  rw [mipsu_tokens_fmt_2r_hex4 m _ _ _ hm1 hm2 ht2 hs2]
  rw [if_neg (by simp)]
  show mipsu_asm [m.data, '$' :: (mipsu_reg_name rt).data,
    '$' :: (mipsu_reg_name rs).data,
    '0' :: 'x' :: mipsu_hex_chars 4 (mipsu_imm_bits imm)] mipsu_default_ctx = _
  unfold mipsu_asm
  dsimp only
  rw [hop]
  dsimp only
  unfold mipsu_parse_2r_imm
  dsimp only
  rw [mipsu_parse_reg_name rt hrt, mipsu_parse_reg_name rs hrs,
    mipsu_parse_imm_roundtrip imm hi1 hi2]
  rfl

theorem mipsu_c4_rs_rt_imm (op : Nat) (m : String) (rs rt : Nat) (imm : Int)
    (hlut : mipsu_op_lut op = ⟨m, .RS_RT_IMM, .I⟩)
    (hop : mipsu_parse_op m.data = .ok (⟨m, .RS_RT_IMM, .I⟩, op))
    (hm1 : m.data ≠ []) (hm2 : ∀ c ∈ m.data, mipsu_ignore c = false)
    (hm3 : m.length ≤ 8) (hrs : rs < 32) (hrt : rt < 32)
    (hi1 : -32768 ≤ imm) (hi2 : imm < 32768) :
    mipsu_assemble (mipsu_disasm (.I op rs rt imm) mipsu_default_ctx)
      mipsu_default_ctx = .ok (.I op rs rt imm) := by
  obtain ⟨hs1, hs2, hs3⟩ := mipsu_reg_name_facts rs hrs
  obtain ⟨ht1, ht2, ht3⟩ := mipsu_reg_name_facts rt hrt
  have hent : mipsu_disasm_entry (.I op rs rt imm) = ⟨m, .RS_RT_IMM, .I⟩ := by
    show mipsu_op_lut op = _
    exact hlut
  have hdis : mipsu_disasm (.I op rs rt imm) mipsu_default_ctx =
      mipsu_fmt_2r_hex4_str m (mipsu_reg_name rs) (mipsu_reg_name rt)
        (mipsu_imm_bits imm) := by
    unfold mipsu_disasm
    dsimp only
    rw [hent]
    simp [mipsu_default_ctx, mipsu_frs, mipsu_frt, mipsu_fimm]
  rw [hdis]
  have hlen : (mipsu_fmt_2r_hex4_str m (mipsu_reg_name rs) (mipsu_reg_name rt)
      (mipsu_imm_bits imm)).data.length ≤ 1023 := by
    unfold mipsu_fmt_2r_hex4_str mipsu_pad mipsu_hex_str
    simp only [String.data_append, List.length_append, List.length_replicate,
      List.length_cons, List.length_nil, mipsu_data_mk, mipsu_length_data,
      mipsu_hex_chars_length]
    omega
  unfold mipsu_assemble
  rw [mipsu_parse_asm_eq _ hlen]
  rw [mipsu_tokens_fmt_2r_hex4 m _ _ _ hm1 hm2 hs2 ht2]
  rw [if_neg (by simp)]
  show mipsu_asm [m.data, '$' :: (mipsu_reg_name rs).data,
    '$' :: (mipsu_reg_name rt).data,
    '0' :: 'x' :: mipsu_hex_chars 4 (mipsu_imm_bits imm)] mipsu_default_ctx = _
  unfold mipsu_asm
  dsimp only
  rw [hop]
  dsimp only
  unfold mipsu_parse_2r_imm
  dsimp only
  rw [mipsu_parse_reg_name rs hrs, mipsu_parse_reg_name rt hrt,
    mipsu_parse_imm_roundtrip imm hi1 hi2]
  rfl

theorem mipsu_c4_rs_imm (op : Nat) (m : String) (rs : Nat) (imm : Int)
    (hlut : mipsu_op_lut op = ⟨m, .RS_IMM, .I⟩)
    (hop : mipsu_parse_op m.data = .ok (⟨m, .RS_IMM, .I⟩, op))
    (hm1 : m.data ≠ []) (hm2 : ∀ c ∈ m.data, mipsu_ignore c = false)
    (hm3 : m.length ≤ 8) (hrs : rs < 32)
    (hi1 : -32768 ≤ imm) (hi2 : imm < 32768) :
    mipsu_assemble (mipsu_disasm (.I op rs 0 imm) mipsu_default_ctx)
      mipsu_default_ctx = .ok (.I op rs 0 imm) := by
  obtain ⟨hs1, hs2, hs3⟩ := mipsu_reg_name_facts rs hrs
  have hent : mipsu_disasm_entry (.I op rs 0 imm) = ⟨m, .RS_IMM, .I⟩ := by
    show mipsu_op_lut op = _
    exact hlut
  have hdis : mipsu_disasm (.I op rs 0 imm) mipsu_default_ctx =
      mipsu_fmt_1r_hex4_str m (mipsu_reg_name rs) (mipsu_imm_bits imm) := by
    unfold mipsu_disasm
    dsimp only
    rw [hent]
    simp [mipsu_default_ctx, mipsu_frs, mipsu_fimm]
  rw [hdis]
  have hlen : (mipsu_fmt_1r_hex4_str m (mipsu_reg_name rs)
      (mipsu_imm_bits imm)).data.length ≤ 1023 := by
    unfold mipsu_fmt_1r_hex4_str mipsu_pad mipsu_hex_str
    simp only [String.data_append, List.length_append, List.length_replicate,
      List.length_cons, List.length_nil, mipsu_data_mk, mipsu_length_data,
      mipsu_hex_chars_length]
    omega
  unfold mipsu_assemble
  rw [mipsu_parse_asm_eq _ hlen]
  rw [mipsu_tokens_fmt_1r_hex4 m _ _ hm1 hm2 hs2]
  rw [if_neg (by simp)]
  show mipsu_asm [m.data, '$' :: (mipsu_reg_name rs).data,
    '0' :: 'x' :: mipsu_hex_chars 4 (mipsu_imm_bits imm)] mipsu_default_ctx = _
  unfold mipsu_asm
  dsimp only
  rw [hop]
  dsimp only
  unfold mipsu_parse_1r_imm
  dsimp only
  rw [mipsu_parse_reg_name rs hrs, mipsu_parse_imm_roundtrip imm hi1 hi2]
  rfl

theorem mipsu_c4_rt_imm (op : Nat) (m : String) (rt : Nat) (imm : Int)
    (hlut : mipsu_op_lut op = ⟨m, .RT_IMM, .I⟩)
    (hop : mipsu_parse_op m.data = .ok (⟨m, .RT_IMM, .I⟩, op))
    (hm1 : m.data ≠ []) (hm2 : ∀ c ∈ m.data, mipsu_ignore c = false)
    (hm3 : m.length ≤ 8) (hrt : rt < 32)
    (hi1 : -32768 ≤ imm) (hi2 : imm < 32768) :
    mipsu_assemble (mipsu_disasm (.I op 0 rt imm) mipsu_default_ctx)
      mipsu_default_ctx = .ok (.I op 0 rt imm) := by
  obtain ⟨ht1, ht2, ht3⟩ := mipsu_reg_name_facts rt hrt
  have hent : mipsu_disasm_entry (.I op 0 rt imm) = ⟨m, .RT_IMM, .I⟩ := by
    show mipsu_op_lut op = _
    exact hlut
  have hdis : mipsu_disasm (.I op 0 rt imm) mipsu_default_ctx =
      mipsu_fmt_1r_hex4_str m (mipsu_reg_name rt) (mipsu_imm_bits imm) := by
    unfold mipsu_disasm
    dsimp only
    rw [hent]
    simp [mipsu_default_ctx, mipsu_frt, mipsu_fimm]
  rw [hdis]
  have hlen : (mipsu_fmt_1r_hex4_str m (mipsu_reg_name rt)
      (mipsu_imm_bits imm)).data.length ≤ 1023 := by
    unfold mipsu_fmt_1r_hex4_str mipsu_pad mipsu_hex_str
    simp only [String.data_append, List.length_append, List.length_replicate,
      List.length_cons, List.length_nil, mipsu_data_mk, mipsu_length_data,
      mipsu_hex_chars_length]
    omega
  unfold mipsu_assemble
  rw [mipsu_parse_asm_eq _ hlen]
  rw [mipsu_tokens_fmt_1r_hex4 m _ _ hm1 hm2 ht2]
  rw [if_neg (by simp)]
  show mipsu_asm [m.data, '$' :: (mipsu_reg_name rt).data,
    '0' :: 'x' :: mipsu_hex_chars 4 (mipsu_imm_bits imm)] mipsu_default_ctx = _
  unfold mipsu_asm
  dsimp only
  rw [hop]
  dsimp only
  unfold mipsu_parse_1r_imm
  dsimp only
  rw [mipsu_parse_reg_name rt hrt, mipsu_parse_imm_roundtrip imm hi1 hi2]
  rfl

theorem mipsu_c4_rt_imm_rs (op : Nat) (m : String) (rs rt : Nat) (imm : Int)
    (hlut : mipsu_op_lut op = ⟨m, .RT_IMM_RS, .I⟩)
    (hop : mipsu_parse_op m.data = .ok (⟨m, .RT_IMM_RS, .I⟩, op))
    (hm1 : m.data ≠ []) (hm2 : ∀ c ∈ m.data, mipsu_ignore c = false)
    (hm3 : m.length ≤ 8) (hrs : rs < 32) (hrt : rt < 32)
    (hi1 : -32768 ≤ imm) (hi2 : imm < 32768) :
    mipsu_assemble (mipsu_disasm (.I op rs rt imm) mipsu_default_ctx)
      mipsu_default_ctx = .ok (.I op rs rt imm) := by
  obtain ⟨hs1, hs2, hs3⟩ := mipsu_reg_name_facts rs hrs
  obtain ⟨ht1, ht2, ht3⟩ := mipsu_reg_name_facts rt hrt
  have hent : mipsu_disasm_entry (.I op rs rt imm) = ⟨m, .RT_IMM_RS, .I⟩ := by
    show mipsu_op_lut op = _
    exact hlut
  have hdis : mipsu_disasm (.I op rs rt imm) mipsu_default_ctx =
      mipsu_fmt_r_hex4_r_str m (mipsu_reg_name rt) (mipsu_imm_bits imm)
        (mipsu_reg_name rs) := by
    unfold mipsu_disasm
    dsimp only
    rw [hent]
    simp [mipsu_default_ctx, mipsu_frs, mipsu_frt, mipsu_fimm]
  rw [hdis]
  have hlen : (mipsu_fmt_r_hex4_r_str m (mipsu_reg_name rt) (mipsu_imm_bits imm)
      (mipsu_reg_name rs)).data.length ≤ 1023 := by
    unfold mipsu_fmt_r_hex4_r_str mipsu_pad mipsu_hex_str
    simp only [String.data_append, List.length_append, List.length_replicate,
      List.length_cons, List.length_nil, mipsu_data_mk, mipsu_length_data,
      mipsu_hex_chars_length]
    omega
  unfold mipsu_assemble
  rw [mipsu_parse_asm_eq _ hlen]
  rw [mipsu_tokens_fmt_r_hex4_r m _ _ _ hm1 hm2 ht2 hs2]
  rw [if_neg (by simp)]
  show mipsu_asm [m.data, '$' :: (mipsu_reg_name rt).data,
    '0' :: 'x' :: mipsu_hex_chars 4 (mipsu_imm_bits imm),
    '$' :: (mipsu_reg_name rs).data] mipsu_default_ctx = _
  unfold mipsu_asm
  dsimp only
  rw [hop]
  dsimp only
  unfold mipsu_parse_r_imm_r
  dsimp only
  rw [mipsu_parse_reg_name rt hrt, mipsu_parse_imm_roundtrip imm hi1 hi2,
    mipsu_parse_reg_name rs hrs]
  rfl

theorem mipsu_c4_addr (op : Nat) (m : String) (addr : Nat)
    (hlut : mipsu_op_lut op = ⟨m, .ADDR, .J⟩)
    (hop : mipsu_parse_op m.data = .ok (⟨m, .ADDR, .J⟩, op))
    (hm1 : m.data ≠ []) (hm2 : ∀ c ∈ m.data, mipsu_ignore c = false)
    (hm3 : m.length ≤ 8) (haddr : addr < 67108864) :
    mipsu_assemble (mipsu_disasm (.J op addr) mipsu_default_ctx)
      mipsu_default_ctx = .ok (.J op addr) := by
  have hent : mipsu_disasm_entry (.J op addr) = ⟨m, .ADDR, .J⟩ := by
    show mipsu_op_lut op = _
    exact hlut
  have hdis : mipsu_disasm (.J op addr) mipsu_default_ctx =
      mipsu_fmt_hex8_str m addr := by
    unfold mipsu_disasm
    dsimp only
    rw [hent]
    simp [mipsu_faddr]
  rw [hdis]
  have hlen : (mipsu_fmt_hex8_str m addr).data.length ≤ 1023 := by
    unfold mipsu_fmt_hex8_str mipsu_pad mipsu_hex_str
    simp only [String.data_append, List.length_append, List.length_replicate,
      List.length_cons, List.length_nil, mipsu_data_mk, mipsu_length_data,
      mipsu_hex_chars_length]
    omega
  unfold mipsu_assemble
  rw [mipsu_parse_asm_eq _ hlen]
  rw [mipsu_tokens_fmt_hex8 m _ hm1 hm2]
  rw [if_neg (by simp)]
  show mipsu_asm [m.data, '0' :: 'x' :: mipsu_hex_chars 8 addr]
    mipsu_default_ctx = _
  unfold mipsu_asm
  dsimp only
  rw [hop]
  dsimp only
  rw [mipsu_parse_addr_roundtrip addr haddr]
  rfl

/-- C4 counterexample: the R-form field `rd = 1, fn = 9` matches the
`jr` entry (type and sub-fields in range, operand format `RS`, neither
`NONE` nor `UNKNOWN`), but the `RS` template renders only `rs`, so the
nonzero `rd` is lost and re-assembling the rendered line does not yield
the field back. -/
theorem mipsu_C4_counterexample :
    mipsu_field_wf (.R 0 0 0 1 0 9) ∧
    (mipsu_disasm_entry (.R 0 0 0 1 0 9)).fmt ≠ .NONE ∧
    (mipsu_disasm_entry (.R 0 0 0 1 0 9)).fmt ≠ .UNKNOWN ∧
    mipsu_assemble (mipsu_disasm (.R 0 0 0 1 0 9) mipsu_default_ctx)
      mipsu_default_ctx ≠ .ok (.R 0 0 0 1 0 9) := by
  refine ⟨by decide, by decide, by decide, ?_⟩
  have hdis : mipsu_disasm (.R 0 0 0 1 0 9) mipsu_default_ctx =
      mipsu_disasm (.R 0 0 0 0 0 9) mipsu_default_ctx := by decide
  rw [hdis]
  rw [mipsu_c4_rs 9 "jr" 0 rfl (by decide) (by decide) (by decide) (by decide)
    (by decide)]
  decide

/-- C4 amended: for every table entry with a defined (non-`NONE`,
non-`UNKNOWN`) operand format and every field matching that entry whose
sub-fields are in range **and whose sub-fields not rendered by the
entry's operand format are zero**, re-assembling the default-option
disassembly yields exactly the field.  One conjunct per defined operand
format, in table order `RS`, `RD`, `RS_RT`, `RD_RS_RT`, `RD_RT_RS`,
`RD_RT_SH`, `RS_IMM`, `RT_IMM`, `RT_IMM_RS`, `RT_RS_IMM`, `RS_RT_IMM`,
`ADDR`. -/
theorem mipsu_C4_amended :
    (∀ (fn : Nat) (m : String) (rs : Nat), fn < 64 →
       mipsu_fn_lut fn = ⟨m, .RS, .R⟩ → rs < 32 →
       mipsu_assemble (mipsu_disasm (.R 0 rs 0 0 0 fn) mipsu_default_ctx)
         mipsu_default_ctx = .ok (.R 0 rs 0 0 0 fn)) ∧
    (∀ (fn : Nat) (m : String) (rd : Nat), fn < 64 →
       mipsu_fn_lut fn = ⟨m, .RD, .R⟩ → rd < 32 →
       mipsu_assemble (mipsu_disasm (.R 0 0 0 rd 0 fn) mipsu_default_ctx)
         mipsu_default_ctx = .ok (.R 0 0 0 rd 0 fn)) ∧
    (∀ (fn : Nat) (m : String) (rs rt : Nat), fn < 64 →
       mipsu_fn_lut fn = ⟨m, .RS_RT, .R⟩ → rs < 32 → rt < 32 →
       mipsu_assemble (mipsu_disasm (.R 0 rs rt 0 0 fn) mipsu_default_ctx)
         mipsu_default_ctx = .ok (.R 0 rs rt 0 0 fn)) ∧
    (∀ (fn : Nat) (m : String) (rs rt rd : Nat), fn < 64 →
       mipsu_fn_lut fn = ⟨m, .RD_RS_RT, .R⟩ → rs < 32 → rt < 32 → rd < 32 →
       mipsu_assemble (mipsu_disasm (.R 0 rs rt rd 0 fn) mipsu_default_ctx)
         mipsu_default_ctx = .ok (.R 0 rs rt rd 0 fn)) ∧
    (∀ (fn : Nat) (m : String) (rs rt rd : Nat), fn < 64 →
       mipsu_fn_lut fn = ⟨m, .RD_RT_RS, .R⟩ → rs < 32 → rt < 32 → rd < 32 →
       mipsu_assemble (mipsu_disasm (.R 0 rs rt rd 0 fn) mipsu_default_ctx)
         mipsu_default_ctx = .ok (.R 0 rs rt rd 0 fn)) ∧
    (∀ (fn : Nat) (m : String) (rt rd sh : Nat), fn < 64 →
       mipsu_fn_lut fn = ⟨m, .RD_RT_SH, .R⟩ → rt < 32 → rd < 32 → sh < 32 →
       mipsu_assemble (mipsu_disasm (.R 0 0 rt rd sh fn) mipsu_default_ctx)
         mipsu_default_ctx = .ok (.R 0 0 rt rd sh fn)) ∧
    (∀ (op : Nat) (m : String) (rs : Nat) (imm : Int), op < 64 →
       mipsu_op_lut op = ⟨m, .RS_IMM, .I⟩ → rs < 32 →
       -32768 ≤ imm → imm < 32768 →
       mipsu_assemble (mipsu_disasm (.I op rs 0 imm) mipsu_default_ctx)
         mipsu_default_ctx = .ok (.I op rs 0 imm)) ∧
    (∀ (op : Nat) (m : String) (rt : Nat) (imm : Int), op < 64 →
       mipsu_op_lut op = ⟨m, .RT_IMM, .I⟩ → rt < 32 →
       -32768 ≤ imm → imm < 32768 →
       mipsu_assemble (mipsu_disasm (.I op 0 rt imm) mipsu_default_ctx)
         mipsu_default_ctx = .ok (.I op 0 rt imm)) ∧
    (∀ (op : Nat) (m : String) (rs rt : Nat) (imm : Int), op < 64 →
       mipsu_op_lut op = ⟨m, .RT_IMM_RS, .I⟩ → rs < 32 → rt < 32 →
       -32768 ≤ imm → imm < 32768 →
       mipsu_assemble (mipsu_disasm (.I op rs rt imm) mipsu_default_ctx)
         mipsu_default_ctx = .ok (.I op rs rt imm)) ∧
    (∀ (op : Nat) (m : String) (rs rt : Nat) (imm : Int), op < 64 →
       mipsu_op_lut op = ⟨m, .RT_RS_IMM, .I⟩ → rs < 32 → rt < 32 →
       -32768 ≤ imm → imm < 32768 →
       mipsu_assemble (mipsu_disasm (.I op rs rt imm) mipsu_default_ctx)
         mipsu_default_ctx = .ok (.I op rs rt imm)) ∧
    (∀ (op : Nat) (m : String) (rs rt : Nat) (imm : Int), op < 64 →
       mipsu_op_lut op = ⟨m, .RS_RT_IMM, .I⟩ → rs < 32 → rt < 32 →
       -32768 ≤ imm → imm < 32768 →
       mipsu_assemble (mipsu_disasm (.I op rs rt imm) mipsu_default_ctx)
         mipsu_default_ctx = .ok (.I op rs rt imm)) ∧
    (∀ (op : Nat) (m : String) (addr : Nat), op < 64 →
       mipsu_op_lut op = ⟨m, .ADDR, .J⟩ → addr < 67108864 →
       mipsu_assemble (mipsu_disasm (.J op addr) mipsu_default_ctx)
         mipsu_default_ctx = .ok (.J op addr)) := by
  refine ⟨?_, ?_, ?_, ?_, ?_, ?_, ?_, ?_, ?_, ?_, ?_, ?_⟩
  · intro fn m rs hfn hlut hrs
    interval_cases fn
    all_goals simp [mipsu_fn_lut] at hlut
    all_goals subst hlut
    · exact mipsu_c4_rs 8 "jalr" rs rfl (by decide) (by decide) (by decide)
        (by decide) hrs
    · exact mipsu_c4_rs 9 "jr" rs rfl (by decide) (by decide) (by decide)
        (by decide) hrs
    · exact mipsu_c4_rs 17 "mthi" rs rfl (by decide) (by decide) (by decide)
        (by decide) hrs
    · exact mipsu_c4_rs 19 "mtlo" rs rfl (by decide) (by decide) (by decide)
        (by decide) hrs
  · intro fn m rd hfn hlut hrd
    interval_cases fn
    all_goals simp [mipsu_fn_lut] at hlut
    all_goals subst hlut
    · exact mipsu_c4_rd 16 "mfhi" rd rfl (by decide) (by decide) (by decide)
        (by decide) hrd
    · exact mipsu_c4_rd 18 "mflo" rd rfl (by decide) (by decide) (by decide)
        (by decide) hrd
  · intro fn m rs rt hfn hlut hrs hrt
    interval_cases fn
    all_goals simp [mipsu_fn_lut] at hlut
    all_goals subst hlut
    · exact mipsu_c4_rs_rt 24 "mult" rs rt rfl (by decide) (by decide)
        (by decide) (by decide) hrs hrt
    · exact mipsu_c4_rs_rt 25 "multu" rs rt rfl (by decide) (by decide)
        (by decide) (by decide) hrs hrt
    · exact mipsu_c4_rs_rt 26 "div" rs rt rfl (by decide) (by decide)
        (by decide) (by decide) hrs hrt
    · exact mipsu_c4_rs_rt 27 "divu" rs rt rfl (by decide) (by decide)
        (by decide) (by decide) hrs hrt
  · intro fn m rs rt rd hfn hlut hrs hrt hrd
    interval_cases fn
    all_goals simp [mipsu_fn_lut] at hlut
    all_goals subst hlut
    · exact mipsu_c4_rd_rs_rt 32 "add" rs rt rd rfl (by decide) (by decide)
        (by decide) (by decide) hrs hrt hrd
    · exact mipsu_c4_rd_rs_rt 33 "addu" rs rt rd rfl (by decide) (by decide)
        (by decide) (by decide) hrs hrt hrd
    · exact mipsu_c4_rd_rs_rt 34 "sub" rs rt rd rfl (by decide) (by decide)
        (by decide) (by decide) hrs hrt hrd
    · exact mipsu_c4_rd_rs_rt 35 "subu" rs rt rd rfl (by decide) (by decide)
        (by decide) (by decide) hrs hrt hrd
    · exact mipsu_c4_rd_rs_rt 36 "and" rs rt rd rfl (by decide) (by decide)
        (by decide) (by decide) hrs hrt hrd
    · exact mipsu_c4_rd_rs_rt 37 "or" rs rt rd rfl (by decide) (by decide)
        (by decide) (by decide) hrs hrt hrd
    · exact mipsu_c4_rd_rs_rt 38 "xor" rs rt rd rfl (by decide) (by decide)
        (by decide) (by decide) hrs hrt hrd
    · exact mipsu_c4_rd_rs_rt 39 "nor" rs rt rd rfl (by decide) (by decide)
        (by decide) (by decide) hrs hrt hrd
    · exact mipsu_c4_rd_rs_rt 42 "slt" rs rt rd rfl (by decide) (by decide)
        (by decide) (by decide) hrs hrt hrd
    · exact mipsu_c4_rd_rs_rt 43 "sltu" rs rt rd rfl (by decide) (by decide)
        (by decide) (by decide) hrs hrt hrd
  · intro fn m rs rt rd hfn hlut hrs hrt hrd
    interval_cases fn
    all_goals simp [mipsu_fn_lut] at hlut
    all_goals subst hlut
    · exact mipsu_c4_rd_rt_rs 4 "sllv" rs rt rd rfl (by decide) (by decide)
        (by decide) (by decide) hrs hrt hrd
    · exact mipsu_c4_rd_rt_rs 6 "srlv" rs rt rd rfl (by decide) (by decide)
        (by decide) (by decide) hrs hrt hrd
    · exact mipsu_c4_rd_rt_rs 7 "srav" rs rt rd rfl (by decide) (by decide)
        (by decide) (by decide) hrs hrt hrd
  · intro fn m rt rd sh hfn hlut hrt hrd hsh
    interval_cases fn
    all_goals simp [mipsu_fn_lut] at hlut
    all_goals subst hlut
    · exact mipsu_c4_rd_rt_sh 0 "sll" rt rd sh rfl (by decide) (by decide)
        (by decide) (by decide) hrt hrd hsh
    · exact mipsu_c4_rd_rt_sh 2 "srl" rt rd sh rfl (by decide) (by decide)
        (by decide) (by decide) hrt hrd hsh
    · exact mipsu_c4_rd_rt_sh 3 "sra" rt rd sh rfl (by decide) (by decide)
        (by decide) (by decide) hrt hrd hsh
  · intro op m rs imm hop hlut hrs hi1 hi2
    interval_cases op
    all_goals simp [mipsu_op_lut] at hlut
    all_goals subst hlut
    · exact mipsu_c4_rs_imm 6 "blez" rs imm rfl (by decide) (by decide)
        (by decide) (by decide) hrs hi1 hi2
    · exact mipsu_c4_rs_imm 7 "bgtz" rs imm rfl (by decide) (by decide)
        (by decide) (by decide) hrs hi1 hi2
  · intro op m rt imm hop hlut hrt hi1 hi2
    interval_cases op
    all_goals simp [mipsu_op_lut] at hlut
    all_goals subst hlut
    · exact mipsu_c4_rt_imm 15 "lui" rt imm rfl (by decide) (by decide)
        (by decide) (by decide) hrt hi1 hi2
  · intro op m rs rt imm hop hlut hrs hrt hi1 hi2
    interval_cases op
    all_goals simp [mipsu_op_lut] at hlut
    all_goals subst hlut
    · exact mipsu_c4_rt_imm_rs 32 "lb" rs rt imm rfl (by decide) (by decide)
        (by decide) (by decide) hrs hrt hi1 hi2
    · exact mipsu_c4_rt_imm_rs 33 "lh" rs rt imm rfl (by decide) (by decide)
        (by decide) (by decide) hrs hrt hi1 hi2
    · exact mipsu_c4_rt_imm_rs 35 "lw" rs rt imm rfl (by decide) (by decide)
        (by decide) (by decide) hrs hrt hi1 hi2
    · exact mipsu_c4_rt_imm_rs 36 "lbu" rs rt imm rfl (by decide) (by decide)
        (by decide) (by decide) hrs hrt hi1 hi2
    · exact mipsu_c4_rt_imm_rs 37 "lhu" rs rt imm rfl (by decide) (by decide)
        (by decide) (by decide) hrs hrt hi1 hi2
    · exact mipsu_c4_rt_imm_rs 40 "sb" rs rt imm rfl (by decide) (by decide)
        (by decide) (by decide) hrs hrt hi1 hi2
    · exact mipsu_c4_rt_imm_rs 41 "sh" rs rt imm rfl (by decide) (by decide)
        (by decide) (by decide) hrs hrt hi1 hi2
    · exact mipsu_c4_rt_imm_rs 43 "sw" rs rt imm rfl (by decide) (by decide)
        (by decide) (by decide) hrs hrt hi1 hi2
  · intro op m rs rt imm hop hlut hrs hrt hi1 hi2
    interval_cases op
    all_goals simp [mipsu_op_lut] at hlut
    all_goals subst hlut
    · exact mipsu_c4_rt_rs_imm 8 "addi" rs rt imm rfl (by decide) (by decide)
        (by decide) (by decide) hrs hrt hi1 hi2
    · exact mipsu_c4_rt_rs_imm 9 "addiu" rs rt imm rfl (by decide) (by decide)
        (by decide) (by decide) hrs hrt hi1 hi2
    · exact mipsu_c4_rt_rs_imm 12 "andi" rs rt imm rfl (by decide) (by decide)
        (by decide) (by decide) hrs hrt hi1 hi2
    · exact mipsu_c4_rt_rs_imm 13 "ori" rs rt imm rfl (by decide) (by decide)
        (by decide) (by decide) hrs hrt hi1 hi2
  · intro op m rs rt imm hop hlut hrs hrt hi1 hi2
    interval_cases op
    all_goals simp [mipsu_op_lut] at hlut
    all_goals subst hlut
    · exact mipsu_c4_rs_rt_imm 4 "beq" rs rt imm rfl (by decide) (by decide)
        (by decide) (by decide) hrs hrt hi1 hi2
    · exact mipsu_c4_rs_rt_imm 5 "bne" rs rt imm rfl (by decide) (by decide)
        (by decide) (by decide) hrs hrt hi1 hi2
  · intro op m addr hop hlut haddr
    interval_cases op
    all_goals simp [mipsu_op_lut] at hlut
    all_goals subst hlut
    · exact mipsu_c4_addr 2 "j" addr rfl (by decide) (by decide) (by decide)
        (by decide) haddr
    · exact mipsu_c4_addr 3 "jal" addr rfl (by decide) (by decide) (by decide)
        (by decide) haddr

/-- Witness for the amended C4: concrete round trips through one R-form,
one I-form and one J-form entry. -/
theorem mipsu_C4_witness :
    mipsu_assemble (mipsu_disasm (.R 0 1 2 3 0 0x20) mipsu_default_ctx)
        mipsu_default_ctx = .ok (.R 0 1 2 3 0 0x20) ∧
    mipsu_assemble (mipsu_disasm (.I 0x08 0 8 10) mipsu_default_ctx)
        mipsu_default_ctx = .ok (.I 0x08 0 8 10) ∧
    mipsu_assemble (mipsu_disasm (.J 2 10) mipsu_default_ctx)
        mipsu_default_ctx = .ok (.J 2 10) := by
  refine ⟨?_, ?_, ?_⟩
  · exact mipsu_C4_amended.2.2.2.1 0x20 "add" 1 2 3 (by decide) rfl (by decide)
      (by decide) (by decide)
  · exact mipsu_C4_amended.2.2.2.2.2.2.2.2.2.1 0x08 "addi" 0 8 10 (by decide)
      rfl (by decide) (by decide) (by decide) (by decide)
  · exact mipsu_C4_amended.2.2.2.2.2.2.2.2.2.2.2 2 "j" 10 (by decide) rfl
      (by decide)
